import Mathlib

/-!
Verification of `jenkins_jobs/modules/project_pipeline_multibranch.py`
(the `PipelineMultiBranch` project type of jenkins-job-builder).

The module is a deterministic transform from a parsed YAML configuration
record to an XML element tree.  We embed:

* the dynamic Python values the module manipulates (`Val`),
* the dynamically-typed dictionary/iteration operations it performs,
  each of which can raise (`PyError`),
* the `xml.etree.ElementTree` element type (`Elem`), and
* the methods `root_xml`, `generate_git_scm_xml`,
  `generate_default_source_strategy`, `generate_source_strategy`,
  translated statement by statement, with Python mutation of the tree
  replaced by explicit construction of the children lists in the same
  order in which `SubElement` calls create them.

Two external sources of behaviour are parameters rather than code:
`uuid.uuid4()` (an oracle `uuids : Nat → String`, one fresh identifier per
generated git source) and the `scm.git` collaborator (a function
`collab : Val → List Elem` giving the children it adds to the scratch
`temp-git` element it receives).  The process-wide logger only emits
diagnostics and has no effect on the produced tree; it is not modelled.
-/

/-- A parsed YAML/Python value as the module sees it: strings, booleans,
integers, `None`, lists and string-keyed dictionaries (association lists,
looked up leftmost-first). -/
inductive Val : Type where
  | str : String → Val
  | bool : Bool → Val
  | int : Int → Val
  | null : Val
  | list : List Val → Val
  | dict : List (String × Val) → Val
  deriving Repr

/-- Errors the module's dynamic operations can raise: `KeyError` on a
missing required dictionary key (carrying the key), and `TypeError`
(covering Python's `TypeError`/`AttributeError`) when an operation is
applied to a value of the wrong shape. -/
inductive PyError : Type where
  | keyError : String → PyError
  | typeError : PyError
  deriving Repr, BEq, DecidableEq

/-- Leftmost lookup in an association list: Python `d[k]` / `k in d`
semantics on dictionaries (whose keys are unique). -/
def alookup : List (String × Val) → String → Option Val
  | [], _ => Option.none
  | (k, v) :: rest, key => if k == key then some v else alookup rest key

/-- Does a list of characters start with the given pattern? -/
def startsWithL : List Char → List Char → Bool
  | [], _ => true
  | _ :: _, [] => false
  | a :: as, b :: bs => a == b && startsWithL as bs

/-- Is the pattern a contiguous run of the list?  (Python substring test.) -/
def subIn (pat : List Char) : List Char → Bool
  | [] => pat.isEmpty
  | c :: rest => startsWithL pat (c :: rest) || subIn pat rest

/-- Is the value the given string?  (Python `==` between a string and an
arbitrary value: false on any non-string, never an error.) -/
def isStrE (k : String) : Val → Bool
  | .str s => s == k
  | _ => false

/-- Python `key in v`: key membership for dicts, element membership for
lists, substring test for strings, `TypeError` otherwise. -/
def pyContains : Val → String → Except PyError Bool
  | .dict kvs, k => .ok (alookup kvs k).isSome
  | .list xs, k => .ok (xs.any (isStrE k))
  | .str s, k => .ok (subIn k.toList s.toList)
  | _, _ => .error .typeError

/-- Python `v[key]` with a string key: dictionary lookup raising
`KeyError` when absent, `TypeError` on any non-dictionary. -/
def pyGetItem : Val → String → Except PyError Val
  | .dict kvs, k =>
    match alookup kvs k with
    | some v => .ok v
    | Option.none => .error (.keyError k)
  | _, _ => .error .typeError

/-- Python `v.get(key, default)`: the default is used only when the key is
absent; a non-dictionary has no `.get` (`AttributeError`, modelled as
`typeError`). -/
def pyGet : Val → String → Val → Except PyError Val
  | .dict kvs, k, d => .ok ((alookup kvs k).getD d)
  | _, _, _ => .error .typeError

/-- Python iteration `for x in v`: lists yield their elements, strings
their one-character substrings, dictionaries their keys; other values are
not iterable. -/
def pyIter : Val → Except PyError (List Val)
  | .list xs => .ok xs
  | .str s => .ok (s.toList.map (fun c => Val.str (String.mk [c])))
  | .dict kvs => .ok (kvs.map (fun p => Val.str p.1))
  | _ => .error .typeError

mutual
/-- Python `repr` of a value (as far as the module can observe it via
`str` applied to non-string values). -/
def pyRepr : Val → String
  | .str s => "'" ++ s ++ "'"
  | .bool true => "True"
  | .bool false => "False"
  | .int n => toString n
  | .null => "None"
  | .list xs => "[" ++ pyReprList xs ++ "]"
  | .dict kvs => "\x7b" ++ pyReprDict kvs ++ "\x7d"

/-- Comma-separated `repr`s of list elements. -/
def pyReprList : List Val → String
  | [] => ""
  | [x] => pyRepr x
  | x :: y :: xs => pyRepr x ++ ", " ++ pyReprList (y :: xs)

/-- Comma-separated `repr`s of dictionary items. -/
def pyReprDict : List (String × Val) → String
  | [] => ""
  | [(k, v)] => "'" ++ k ++ "': " ++ pyRepr v
  | (k, v) :: p :: kvs => "'" ++ k ++ "': " ++ pyRepr v ++ ", " ++ pyReprDict (p :: kvs)
end

/-- Python `str(v)`: the string itself for strings, `repr` otherwise. -/
def pyStr : Val → String
  | .str s => s
  | v => pyRepr v

/-- Python `str.lower()` (over the ASCII letters, which is all the module
feeds it: `str(True/False/None)` and configuration strings). -/
def strLower (s : String) : String := String.mk (s.toList.map Char.toLower)

/-- An `xml.etree.ElementTree` element: tag, attributes, optional text
(the module assigns arbitrary Python values to `.text`), and ordered
children. -/
inductive Elem : Type where
  | mk : String → List (String × String) → Option Val → List Elem → Elem
  deriving Repr

/-- The element's tag. -/
def Elem.tag : Elem → String
  | .mk t _ _ _ => t

/-- The element's attributes, in insertion order. -/
def Elem.attrs : Elem → List (String × String)
  | .mk _ a _ _ => a

/-- The element's text. -/
def Elem.text : Elem → Option Val
  | .mk _ _ t _ => t

/-- The element's children, in document order. -/
def Elem.children : Elem → List Elem
  | .mk _ _ _ c => c

/-- `ElementTree.find` over a list of children: the first one with the
given tag. -/
def findChild (es : List Elem) (t : String) : Option Elem :=
  es.find? (fun e => e.tag == t)

/-! ## Fixed subtrees of `root_xml` (lines 156-200, 244-252 of the source) -/

/-- Root tag of the generated document. -/
def rootTag : String :=
  "org.jenkinsci.plugins.workflow.multibranch.WorkflowMultiBranchProject"

/-- The fixed folder-credentials-provider placeholder under `properties`
(source lines 157-167). -/
def folderCredentialsElem : Elem :=
  .mk "com.cloudbees.hudson.plugins.folder.properties.FolderCredentialsProvider_-FolderCredentialsProperty"
    [("plugin", "cloudbees-folder")] Option.none
    [.mk "domainCredentialsMap" [("class", "hudson.util.CopyOnWriteMap$Hash")] Option.none
      [.mk "entry" [] Option.none
        [.mk "com.cloudbees.plugins.credentials.domains.Domain" [("plugin", "credentials")]
          Option.none [.mk "specifications" [] Option.none []],
         .mk "java.util.concurrent.CopyOnWriteArrayList" [] Option.none []]]]

/-- The fixed `views` block (source lines 176-188). -/
def viewsElem : Elem :=
  .mk "views" [] Option.none
    [.mk "hudson.model.AllView" [] Option.none
      [.mk "owner" [("class", rootTag), ("reference", "../../..")] Option.none [],
       .mk "name" [] (some (.str "All")) [],
       .mk "filterExecutors" [] (some (.str "false")) [],
       .mk "filterQueue" [] (some (.str "false")) [],
       .mk "properties" [("class", "hudson.model.View$PropertyList")] Option.none []]]

/-- The fixed `viewsTabBar` element (source lines 190-191). -/
def viewsTabBarElem : Elem :=
  .mk "viewsTabBar" [("class", "hudson.views.DefaultViewsTabBar")] Option.none []

/-- The fixed `healthMetrics` block (source lines 193-196). -/
def healthMetricsElem : Elem :=
  .mk "healthMetrics" [] Option.none
    [.mk "com.cloudbees.hudson.plugins.folder.health.WorstChildHealthMetric"
      [("plugin", "cloudbees-folder")] Option.none []]

/-- The fixed `icon` element (source lines 198-200). -/
def iconElem : Elem :=
  .mk "icon"
    [("class", "com.cloudbees.hudson.plugins.folder.icons.StockFolderIcon"),
     ("plugin", "cloudbees-folder")] Option.none []

/-- The fixed `owner` reference appended to `sources` (source lines 244-246). -/
def sourcesOwnerElem : Elem :=
  .mk "owner" [("class", rootTag), ("reference", "../..")] Option.none []

/-- The fixed `factory` block (source lines 248-252). -/
def factoryElem : Elem :=
  .mk "factory" [("class", "org.jenkinsci.plugins.workflow.multibranch.WorkflowBranchProjectFactory")]
    Option.none
    [.mk "owner" [("class", rootTag), ("reference", "../..")] Option.none []]

/-! ## Branch strategy generators (source lines 288-334) -/

/-- A one-item `jenkins.branch.BranchProperty-array` holding the
no-trigger branch property (source lines 307-309, 321-323, 332-334). -/
def noTriggerArrayElem : Elem :=
  .mk "a" [("class", "jenkins.branch.BranchProperty-array")] Option.none
    [.mk "jenkins.branch.NoTriggerBranchProperty" [] Option.none []]

/-- `generate_default_source_strategy` (source lines 288-294): the default
strategy emitted when the git source spec carries no `strategy` key. -/
def generate_default_source_strategy : Elem :=
  .mk "strategy" [("class", "jenkins.branch.DefaultBranchPropertyStrategy")] Option.none
    [.mk "properties" [("class", "empty-list")] Option.none []]

/-- One `Named` entry of the named-exceptions strategy, for one exception
value (source lines 318-325). -/
def namedExceptionElem (v : Val) : Elem :=
  .mk "jenkins.branch.NamedExceptionsBranchPropertyStrategy_-Named" [] Option.none
    [.mk "props" [("class", "java.util.Arrays$ArrayList")] Option.none [noTriggerArrayElem],
     .mk "name" [] (some v) []]

/-- `generate_source_strategy` (source lines 296-334), given the value of
the git source spec's `strategy` key. -/
def generate_source_strategy (data : Val) : Except PyError Elem := do
  let hasExc ← pyContains data "exceptions"
  if hasExc then do
    let excV ← pyGetItem data "exceptions"
    let excs ← pyIter excV
    pure (.mk "strategy" [("class", "jenkins.branch.NamedExceptionsBranchPropertyStrategy")]
      Option.none
      [.mk "defaultProperties" [("class", "java.util.Arrays$ArrayList")] Option.none
        [noTriggerArrayElem],
       .mk "namedExceptions" [("class", "java.util.Arrays$ArrayList")] Option.none
        [.mk "a" [("class", "jenkins.branch.NamedExceptionsBranchPropertyStrategy$Named-array")]
          Option.none (excs.map namedExceptionElem)]])
  else
    pure (.mk "strategy" [("class", "jenkins.branch.DefaultBranchPropertyStrategy")] Option.none
      [.mk "properties" [("class", "java.util.Arrays$ArrayList")] Option.none
        [noTriggerArrayElem]])

/-! ## Git source generation (source lines 256-286) -/

/-- The extensions-splicing step (source lines 282-285): from the children
the collaborator added to the scratch `temp-git` element, find the `scm`
child; if it is truthy (a Python `Element` is truthy iff it has children)
and its `extensions` child is found and truthy, that `extensions` element
is appended to the `source` node; otherwise nothing is. -/
def findSplice (tempChildren : List Elem) : List Elem :=
  match findChild tempChildren "scm" with
  | Option.none => []
  | some s =>
    if s.children.isEmpty then []
    else
      match findChild s.children "extensions" with
      | Option.none => []
      | some x => if x.children.isEmpty then [] else [x]

/-- `generate_git_scm_xml` (source lines 256-286), returning the `source`
element the method attaches to the branch source.  `collab` is the
`scm.git` collaborator (the children it adds to the scratch `temp-git`
element passed to it), `uuid` the fresh identifier from `uuid.uuid4()`.
The children-list concatenation reproduces the `SubElement` creation
order: an absent `excludes` key creates the empty `excludes` child
*before* the loop that creates the other field children, and the
`temp-git` scratch element is removed again at the end. -/
def generate_git_scm_xml (collab : Val → List Elem) (uuid : String) (data : Val) :
    Except PyError Elem := do
  let ignoreOnPush ← pyGet data "ignore-on-push-notifications" (.bool true)
  let urlV ← pyGetItem data "url"
  let credsV ← pyGetItem data "credentials-id"
  let includesV ← pyGet data "includes" (.str "*")
  let hasExcl ← pyContains data "excludes"
  let exclOpt ← if hasExcl then do
      let e ← pyGetItem data "excludes"
      pure (some e)
    else pure (Option.none : Option Val)
  let fieldElems : List Elem :=
    [.mk "id" [] (some (.str uuid)) [],
     .mk "remote" [] (some urlV) [],
     .mk "credentialsId" [] (some credsV) [],
     .mk "ignoreOnPushNotifications" [] (some (.str (strLower (pyStr ignoreOnPush)))) [],
     .mk "includes" [] (some includesV) []]
  let baseChildren : List Elem :=
    match exclOpt with
    | some ev => fieldElems ++ [.mk "excludes" [] (some ev) []]
    | Option.none => .mk "excludes" [] Option.none [] :: fieldElems
  pure (.mk "source" [("class", "jenkins.plugins.git.GitSCMSource"), ("plugin", "git")]
    Option.none (baseChildren ++ findSplice (collab data)))

/-! ## `root_xml` (source lines 144-254) -/

/-- The `properties` block (source lines 156-174): the fixed
folder-credentials provider, plus the environment-variables property when
`env-properties` is present in the `multibranch` mapping. -/
def propertiesBlock (pd : Val) : Except PyError Elem := do
  let hasEnv ← pyContains pd "env-properties"
  if hasEnv then do
    let ev ← pyGetItem pd "env-properties"
    pure (.mk "properties" [] Option.none
      [folderCredentialsElem,
       .mk "com.cloudbees.hudson.plugins.folder.properties.EnvVarsFolderProperty"
        [("plugin", "cloudbees-folders-plus")] Option.none
        [.mk "properties" [] (some ev) []]])
  else
    pure (.mk "properties" [] Option.none [folderCredentialsElem])

/-- The `orphanedItemStrategy` block (source lines 202-212): a
`pruneDeadBranches` child only when `prune-dead-branches` is present
(text `str(value).lower()` — the `.get` default `False` is dead, the key
is known present), then `daysToKeep` and `numToKeep` with raw values,
defaulting to `"-1"`. -/
def orphanedBlock (pd : Val) : Except PyError Elem := do
  let hasPrune ← pyContains pd "prune-dead-branches"
  let pruneKids ← if hasPrune then do
      let v ← pyGet pd "prune-dead-branches" (.bool false)
      pure [Elem.mk "pruneDeadBranches" [] (some (.str (strLower (pyStr v)))) []]
    else pure ([] : List Elem)
  let days ← pyGet pd "days-to-keep" (.str "-1")
  let num ← pyGet pd "number-to-keep" (.str "-1")
  pure (.mk "orphanedItemStrategy"
    [("class", "com.cloudbees.hudson.plugins.folder.computed.DefaultOrphanedItemStrategy"),
     ("plugin", "cloudbees-folder")] Option.none
    (pruneKids ++
      [.mk "daysToKeep" [] (some days) [],
       .mk "numToKeep" [] (some num) []]))

/-- The `triggers` block (source lines 214-222): an optional timer
trigger, then the periodic folder trigger whose `spec` and `interval`
are *required* lookups (`KeyError` when absent). -/
def triggersBlock (pd : Val) : Except PyError Elem := do
  let hasTimer ← pyContains pd "timer-trigger"
  let timerKids ← if hasTimer then do
      let t ← pyGetItem pd "timer-trigger"
      pure [Elem.mk "hudson.triggers.TimerTrigger" [] Option.none
        [.mk "spec" [] (some t) []]]
    else pure ([] : List Elem)
  let spec ← pyGetItem pd "periodic-folder-spec"
  let interval ← pyGetItem pd "periodic-folder-interval"
  pure (.mk "triggers" [] Option.none
    (timerKids ++
      [.mk "com.cloudbees.hudson.plugins.folder.computed.PeriodicFolderTrigger"
        [("plugin", "cloudbees-folder")] Option.none
        [.mk "spec" [] (some spec) [],
         .mk "interval" [] (some interval) []]]))

/-- The loop over `project_def['scm']` (source lines 230-242): entries
that are dictionaries containing `git` each produce one
`jenkins.branch.BranchSource` (git source via `generate_git_scm_xml`,
then the strategy); any other entry is skipped (the source only logs a
notice).  `i` indexes the uuid oracle; it advances only when a git source
is actually generated. -/
def processScm (collab : Val → List Elem) (uuids : Nat → String) :
    Nat → List Val → Except PyError (List Elem)
  | _, [] => .ok []
  | i, gd :: rest =>
    match gd with
    | .dict kvs =>
      match alookup kvs "git" with
      | some gitVal => do
        let src ← generate_git_scm_xml collab (uuids i) gitVal
        let hasStrat ← pyContains gitVal "strategy"
        let strat ← if hasStrat then do
            let sv ← pyGetItem gitVal "strategy"
            generate_source_strategy sv
          else pure generate_default_source_strategy
        let rest' ← processScm collab uuids (i + 1) rest
        pure (Elem.mk "jenkins.branch.BranchSource" [] Option.none [src, strat] :: rest')
      | Option.none => processScm collab uuids i rest
    | _ => processScm collab uuids i rest

/-- The `sources` block (source lines 224-246): the `data` child holds
the branch sources produced from the `scm` sequence (empty when `scm` is
absent), followed by the fixed owner reference. -/
def sourcesBlock (collab : Val → List Elem) (uuids : Nat → String) (pd : Val) :
    Except PyError Elem := do
  let hasScm ← pyContains pd "scm"
  let kids ← if hasScm then do
      let scmV ← pyGetItem pd "scm"
      let entries ← pyIter scmV
      processScm collab uuids 0 entries
    else pure ([] : List Elem)
  pure (.mk "sources"
    [("class", "jenkins.branch.MultiBranchProject$BranchSourceList"), ("plugin", "branch-api")]
    Option.none
    [.mk "data" [] Option.none kids, sourcesOwnerElem])

/-- `root_xml` (source lines 144-254): the whole document build.  When
`multibranch` is absent the bare root element is returned; otherwise the
blocks are evaluated in source order and assembled under the root. -/
def root_xml (collab : Val → List Elem) (uuids : Nat → String)
    (data : List (String × Val)) : Except PyError Elem :=
  match alookup data "multibranch" with
  | Option.none => .ok (.mk rootTag [("plugin", "workflow-multibranch")] Option.none [])
  | some pd => do
    let props ← propertiesBlock pd
    let orphaned ← orphanedBlock pd
    let triggers ← triggersBlock pd
    let sources ← sourcesBlock collab uuids pd
    pure (.mk rootTag [("plugin", "workflow-multibranch")] Option.none
      [props, viewsElem, viewsTabBarElem, healthMetricsElem, iconElem,
       orphaned, triggers, sources, factoryElem])

/-! ## Derived shapes of the blocks, and wellformedness predicates -/

/-- The environment-variables property emitted when `env-properties` is
present (source lines 169-174). -/
def envPropElem (ev : Val) : Elem :=
  .mk "com.cloudbees.hudson.plugins.folder.properties.EnvVarsFolderProperty"
    [("plugin", "cloudbees-folders-plus")] Option.none
    [.mk "properties" [] (some ev) []]

/-- The `properties` element produced for a dictionary `multibranch`
mapping. -/
def propsElemOf (kvs : List (String × Val)) : Elem :=
  .mk "properties" [] Option.none
    (folderCredentialsElem ::
      (match alookup kvs "env-properties" with
       | some ev => [envPropElem ev]
       | Option.none => []))

/-- The `orphanedItemStrategy` element produced for a dictionary
`multibranch` mapping. -/
def orphanedElemOf (kvs : List (String × Val)) : Elem :=
  .mk "orphanedItemStrategy"
    [("class", "com.cloudbees.hudson.plugins.folder.computed.DefaultOrphanedItemStrategy"),
     ("plugin", "cloudbees-folder")] Option.none
    ((match alookup kvs "prune-dead-branches" with
      | some v => [Elem.mk "pruneDeadBranches" [] (some (.str (strLower (pyStr v)))) []]
      | Option.none => []) ++
     [.mk "daysToKeep" [] (some ((alookup kvs "days-to-keep").getD (.str "-1"))) [],
      .mk "numToKeep" [] (some ((alookup kvs "number-to-keep").getD (.str "-1"))) []])

/-- The `triggers` element produced when both required periodic-folder
fields are present. -/
def triggersElemOf (kvs : List (String × Val)) (sv iv : Val) : Elem :=
  .mk "triggers" [] Option.none
    ((match alookup kvs "timer-trigger" with
      | some t => [Elem.mk "hudson.triggers.TimerTrigger" [] Option.none
          [.mk "spec" [] (some t) []]]
      | Option.none => []) ++
     [.mk "com.cloudbees.hudson.plugins.folder.computed.PeriodicFolderTrigger"
        [("plugin", "cloudbees-folder")] Option.none
        [.mk "spec" [] (some sv) [],
         .mk "interval" [] (some iv) []]])

/-- The `sources` element wrapping a given list of branch sources. -/
def sourcesElemOf (l : List Elem) : Elem :=
  .mk "sources"
    [("class", "jenkins.branch.MultiBranchProject$BranchSourceList"), ("plugin", "branch-api")]
    Option.none
    [.mk "data" [] Option.none l, sourcesOwnerElem]

/-- The git spec of an scm entry, when the entry is a dictionary
containing `git` (exactly the entries the loop processes). -/
def entryGit : Val → Option Val
  | .dict kvs => alookup kvs "git"
  | _ => Option.none

/-- A `strategy` value the strategy generator handles along the paths the
claims quantify over: a dictionary whose `exceptions` value, when
present, is a list. -/
def strategyOkB : Val → Bool
  | .dict kvs =>
    match alookup kvs "exceptions" with
    | some (.list _) => true
    | some _ => false
    | Option.none => true
  | _ => false

/-- A git source spec of the right dynamic shape: a dictionary whose
`strategy` value, if it will be reached (i.e. when both required fields
are present), is handled by the strategy generator. -/
def gitSpecTypedB : Val → Bool
  | .dict kvs =>
    (match alookup kvs "url", alookup kvs "credentials-id" with
     | some _, some _ =>
       match alookup kvs "strategy" with
       | some sv => strategyOkB sv
       | Option.none => true
     | _, _ => true)
  | _ => false

/-- Both required fields of a git source spec are present. -/
def gitSpecReqB : Val → Bool
  | .dict kvs => (alookup kvs "url").isSome && (alookup kvs "credentials-id").isSome
  | _ => false

/-- An scm entry is well-typed: it is either skipped by the loop, or its
git spec is a dictionary (with a handled strategy when it is reached). -/
def entryTypedB (e : Val) : Bool :=
  match entryGit e with
  | some g => gitSpecTypedB g
  | Option.none => true

/-- An scm entry the loop handles without an error: either skipped, or a
well-typed git spec with both required fields present. -/
def entryOkB (e : Val) : Bool :=
  match entryGit e with
  | some g => gitSpecTypedB g && gitSpecReqB g
  | Option.none => true

/-- Python dictionary assignment `d[k] = v` on the association-list
model: replace the first binding of `k`, appending when absent. -/
def setKeyA : List (String × Val) → String → Val → List (String × Val)
  | [], k, v => [(k, v)]
  | (k', v') :: rest, k, v =>
    if k' == k then (k, v) :: rest else (k', v') :: setKeyA rest k v

mutual
/-- Erase the text of every `id` child of a `source` element, anywhere in
the tree (the field that `generate_git_scm_xml` fills with a fresh
`uuid.uuid4()`); everything else is kept. `inSource` records whether the
parent is a `source` element. -/
def stripIds (inSource : Bool) : Elem → Elem
  | .mk tg a tx kids =>
    .mk tg a (if inSource && tg == "id" then Option.none else tx)
      (stripIdsList (tg == "source") kids)

/-- `stripIds` on every element of a children list. -/
def stripIdsList (inSource : Bool) : List Elem → List Elem
  | [] => []
  | e :: es => stripIds inSource e :: stripIdsList inSource es
end

mutual
/-- No element anywhere in the tree carries the given tag. -/
def noTagB (t : String) : Elem → Bool
  | .mk tg _ _ kids => tg != t && noTagListB t kids

/-- `noTagB` on every element of a children list. -/
def noTagListB (t : String) : List Elem → Bool
  | [] => true
  | e :: es => noTagB t e && noTagListB t es
end

/-! ## Basic lemmas -/

@[simp] theorem Elem.tag_mk (t : String) (a : List (String × String)) (tx : Option Val)
    (k : List Elem) : (Elem.mk t a tx k).tag = t := rfl

@[simp] theorem Elem.attrs_mk (t : String) (a : List (String × String)) (tx : Option Val)
    (k : List Elem) : (Elem.mk t a tx k).attrs = a := rfl

@[simp] theorem Elem.text_mk (t : String) (a : List (String × String)) (tx : Option Val)
    (k : List Elem) : (Elem.mk t a tx k).text = tx := rfl

@[simp] theorem Elem.children_mk (t : String) (a : List (String × String)) (tx : Option Val)
    (k : List Elem) : (Elem.mk t a tx k).children = k := rfl

@[simp] theorem exBind_ok {α β : Type} (a : α) (f : α → Except PyError β) :
    (Except.ok a >>= f) = f a := rfl

@[simp] theorem exBind_error {α β : Type} (e : PyError) (f : α → Except PyError β) :
    ((Except.error e : Except PyError α) >>= f) = Except.error e := rfl

@[simp] theorem exMap_ok {α β : Type} (f : α → β) (a : α) :
    (Except.ok a : Except PyError α).map f = .ok (f a) := rfl

@[simp] theorem exMap_error {α β : Type} (f : α → β) (e : PyError) :
    (Except.error e : Except PyError α).map f = .error e := rfl

@[simp] theorem exPure_eq {α : Type} (a : α) : (pure a : Except PyError α) = .ok a := rfl

@[simp] theorem pyContains_dict (kvs : List (String × Val)) (k : String) :
    pyContains (.dict kvs) k = .ok (alookup kvs k).isSome := rfl

@[simp] theorem pyGet_dict (kvs : List (String × Val)) (k : String) (d : Val) :
    pyGet (.dict kvs) k d = .ok ((alookup kvs k).getD d) := rfl

theorem pyGetItem_dict_some {kvs : List (String × Val)} {k : String} {v : Val}
    (h : alookup kvs k = some v) : pyGetItem (.dict kvs) k = .ok v := by
  simp [pyGetItem, h]

theorem pyGetItem_dict_none {kvs : List (String × Val)} {k : String}
    (h : alookup kvs k = Option.none) : pyGetItem (.dict kvs) k = .error (.keyError k) := by
  simp [pyGetItem, h]

/-! ## Characterization of the blocks -/

theorem propertiesBlock_dict (kvs : List (String × Val)) :
    propertiesBlock (.dict kvs) = .ok (propsElemOf kvs) := by
  unfold propertiesBlock propsElemOf
  cases h : alookup kvs "env-properties" with
  | none => simp [h]
  | some ev => simp [h, pyGetItem_dict_some h, envPropElem]

theorem orphanedBlock_dict (kvs : List (String × Val)) :
    orphanedBlock (.dict kvs) = .ok (orphanedElemOf kvs) := by
  unfold orphanedBlock orphanedElemOf
  cases h : alookup kvs "prune-dead-branches" with
  | none => simp [h]
  | some v => simp [h]

theorem triggersBlock_no_spec {kvs : List (String × Val)}
    (h : alookup kvs "periodic-folder-spec" = Option.none) :
    triggersBlock (.dict kvs) = .error (.keyError "periodic-folder-spec") := by
  unfold triggersBlock
  cases ht : alookup kvs "timer-trigger" with
  | none => simp [ht, pyGetItem_dict_none h]
  | some t => simp [ht, pyGetItem_dict_some ht, pyGetItem_dict_none h]

theorem triggersBlock_no_interval {kvs : List (String × Val)} {sv : Val}
    (hs : alookup kvs "periodic-folder-spec" = some sv)
    (h : alookup kvs "periodic-folder-interval" = Option.none) :
    triggersBlock (.dict kvs) = .error (.keyError "periodic-folder-interval") := by
  unfold triggersBlock
  cases ht : alookup kvs "timer-trigger" with
  | none => simp [ht, pyGetItem_dict_some hs, pyGetItem_dict_none h]
  | some t => simp [ht, pyGetItem_dict_some ht, pyGetItem_dict_some hs, pyGetItem_dict_none h]

theorem triggersBlock_ok {kvs : List (String × Val)} {sv iv : Val}
    (hs : alookup kvs "periodic-folder-spec" = some sv)
    (hi : alookup kvs "periodic-folder-interval" = some iv) :
    triggersBlock (.dict kvs) = .ok (triggersElemOf kvs sv iv) := by
  unfold triggersBlock triggersElemOf
  cases ht : alookup kvs "timer-trigger" with
  | none => simp [ht, pyGetItem_dict_some hs, pyGetItem_dict_some hi]
  | some t => simp [ht, pyGetItem_dict_some ht, pyGetItem_dict_some hs, pyGetItem_dict_some hi]

theorem sourcesBlock_no_scm {collab : Val → List Elem} {uuids : Nat → String}
    {kvs : List (String × Val)} (h : alookup kvs "scm" = Option.none) :
    sourcesBlock collab uuids (.dict kvs) = .ok (sourcesElemOf []) := by
  unfold sourcesBlock sourcesElemOf
  simp [h]

theorem sourcesBlock_scm_list {collab : Val → List Elem} {uuids : Nat → String}
    {kvs : List (String × Val)} {es : List Val}
    (h : alookup kvs "scm" = some (.list es)) :
    sourcesBlock collab uuids (.dict kvs) =
      (processScm collab uuids 0 es).map (fun l => sourcesElemOf l) := by
  unfold sourcesBlock sourcesElemOf
  simp only [pyContains_dict, h, Option.isSome_some, exBind_ok, if_true,
    pyGetItem_dict_some h, pyIter, exPure_eq]
  cases processScm collab uuids 0 es <;> simp

theorem root_xml_no_multibranch {collab : Val → List Elem} {uuids : Nat → String}
    {data : List (String × Val)} (h : alookup data "multibranch" = Option.none) :
    root_xml collab uuids data =
      .ok (.mk rootTag [("plugin", "workflow-multibranch")] Option.none []) := by
  unfold root_xml
  simp [h]

theorem root_xml_dict {collab : Val → List Elem} {uuids : Nat → String}
    {data : List (String × Val)} {kvs : List (String × Val)}
    (h : alookup data "multibranch" = some (.dict kvs)) :
    root_xml collab uuids data = (do
      let triggers ← triggersBlock (.dict kvs)
      let sources ← sourcesBlock collab uuids (.dict kvs)
      pure (Elem.mk rootTag [("plugin", "workflow-multibranch")] Option.none
        [propsElemOf kvs, viewsElem, viewsTabBarElem, healthMetricsElem, iconElem,
         orphanedElemOf kvs, triggers, sources, factoryElem])) := by
  unfold root_xml
  simp [h, propertiesBlock_dict, orphanedBlock_dict]

/-! ## Characterization of `generate_git_scm_xml` -/

theorem gen_char (collab : Val → List Elem) (u : String) {kvs : List (String × Val)}
    {urlv crv : Val} (hu : alookup kvs "url" = some urlv)
    (hc : alookup kvs "credentials-id" = some crv) :
    generate_git_scm_xml collab u (.dict kvs) = .ok (Elem.mk "source"
      [("class", "jenkins.plugins.git.GitSCMSource"), ("plugin", "git")] Option.none
      ((match alookup kvs "excludes" with
        | some ev =>
          [Elem.mk "id" [] (some (.str u)) [],
           Elem.mk "remote" [] (some urlv) [],
           Elem.mk "credentialsId" [] (some crv) [],
           Elem.mk "ignoreOnPushNotifications" []
             (some (.str (strLower (pyStr
               ((alookup kvs "ignore-on-push-notifications").getD (.bool true)))))) [],
           Elem.mk "includes" [] (some ((alookup kvs "includes").getD (.str "*"))) [],
           Elem.mk "excludes" [] (some ev) []]
        | Option.none =>
          [Elem.mk "excludes" [] Option.none [],
           Elem.mk "id" [] (some (.str u)) [],
           Elem.mk "remote" [] (some urlv) [],
           Elem.mk "credentialsId" [] (some crv) [],
           Elem.mk "ignoreOnPushNotifications" []
             (some (.str (strLower (pyStr
               ((alookup kvs "ignore-on-push-notifications").getD (.bool true)))))) [],
           Elem.mk "includes" [] (some ((alookup kvs "includes").getD (.str "*"))) []])
       ++ findSplice (collab (.dict kvs)))) := by
  unfold generate_git_scm_xml
  cases hx : alookup kvs "excludes" with
  | none => simp [pyGetItem_dict_some hu, pyGetItem_dict_some hc, hx]
  | some ev => simp [pyGetItem_dict_some hu, pyGetItem_dict_some hc, hx, pyGetItem_dict_some hx]

theorem gen_err_url (collab : Val → List Elem) (u : String) {gk : List (String × Val)}
    (h : alookup gk "url" = Option.none) :
    generate_git_scm_xml collab u (.dict gk) = .error (.keyError "url") := by
  unfold generate_git_scm_xml
  simp [pyGetItem_dict_none h]

theorem gen_err_creds (collab : Val → List Elem) (u : String) {gk : List (String × Val)}
    {urlv : Val} (hu : alookup gk "url" = some urlv)
    (h : alookup gk "credentials-id" = Option.none) :
    generate_git_scm_xml collab u (.dict gk) = .error (.keyError "credentials-id") := by
  unfold generate_git_scm_xml
  simp [pyGetItem_dict_some hu, pyGetItem_dict_none h]

theorem gen_nondict (collab : Val → List Elem) (u : String) {g : Val}
    (h : ∀ l, g ≠ Val.dict l) : generate_git_scm_xml collab u g = .error .typeError := by
  cases g with
  | dict l => exact absurd rfl (h l)
  | str s => unfold generate_git_scm_xml; simp [pyGet]
  | bool b => unfold generate_git_scm_xml; simp [pyGet]
  | int n => unfold generate_git_scm_xml; simp [pyGet]
  | null => unfold generate_git_scm_xml; simp [pyGet]
  | list xs => unfold generate_git_scm_xml; simp [pyGet]

/-! ## Characterization of the strategy generators -/

theorem strat_no_exceptions {kvs : List (String × Val)}
    (h : alookup kvs "exceptions" = Option.none) :
    generate_source_strategy (.dict kvs) =
      .ok (.mk "strategy" [("class", "jenkins.branch.DefaultBranchPropertyStrategy")]
        Option.none
        [.mk "properties" [("class", "java.util.Arrays$ArrayList")] Option.none
          [noTriggerArrayElem]]) := by
  unfold generate_source_strategy
  simp [h]

theorem strat_exceptions {kvs : List (String × Val)} {names : List Val}
    (h : alookup kvs "exceptions" = some (.list names)) :
    generate_source_strategy (.dict kvs) =
      .ok (.mk "strategy" [("class", "jenkins.branch.NamedExceptionsBranchPropertyStrategy")]
        Option.none
        [.mk "defaultProperties" [("class", "java.util.Arrays$ArrayList")] Option.none
          [noTriggerArrayElem],
         .mk "namedExceptions" [("class", "java.util.Arrays$ArrayList")] Option.none
          [.mk "a" [("class", "jenkins.branch.NamedExceptionsBranchPropertyStrategy$Named-array")]
            Option.none (names.map namedExceptionElem)]]) := by
  unfold generate_source_strategy
  simp [h, pyGetItem_dict_some h, pyIter]

theorem strat_ok_of_strategyOkB {sv : Val} (h : strategyOkB sv = true) :
    ∃ e, generate_source_strategy sv = .ok e := by
  cases sv with
  | dict kvs =>
    cases hx : alookup kvs "exceptions" with
    | none => exact ⟨_, strat_no_exceptions hx⟩
    | some ex =>
      cases ex with
      | list names => exact ⟨_, strat_exceptions hx⟩
      | str s => simp [strategyOkB, hx] at h
      | bool b => simp [strategyOkB, hx] at h
      | int n => simp [strategyOkB, hx] at h
      | null => simp [strategyOkB, hx] at h
      | dict d => simp [strategyOkB, hx] at h
  | str s => simp [strategyOkB] at h
  | bool b => simp [strategyOkB] at h
  | int n => simp [strategyOkB] at h
  | null => simp [strategyOkB] at h
  | list xs => simp [strategyOkB] at h

/-! ## Inversion helpers for the entry predicates -/

theorem entryGit_some_inv {e : Val} {g : Val} (h : entryGit e = some g) :
    ∃ kvs, e = Val.dict kvs ∧ alookup kvs "git" = some g := by
  cases e with
  | dict kvs => exact ⟨kvs, rfl, h⟩
  | str s => simp [entryGit] at h
  | bool b => simp [entryGit] at h
  | int n => simp [entryGit] at h
  | null => simp [entryGit] at h
  | list xs => simp [entryGit] at h

theorem gitSpecReqB_inv {g : Val} (h : gitSpecReqB g = true) :
    ∃ gk urlv crv, g = Val.dict gk ∧ alookup gk "url" = some urlv ∧
      alookup gk "credentials-id" = some crv := by
  cases g with
  | dict gk =>
    simp only [gitSpecReqB, Bool.and_eq_true, Option.isSome_iff_exists] at h
    obtain ⟨⟨urlv, hu⟩, crv, hc⟩ := h
    exact ⟨gk, urlv, crv, rfl, hu, hc⟩
  | str s => simp [gitSpecReqB] at h
  | bool b => simp [gitSpecReqB] at h
  | int n => simp [gitSpecReqB] at h
  | null => simp [gitSpecReqB] at h
  | list xs => simp [gitSpecReqB] at h

/-! ## Characterization of the scm loop -/

theorem processScm_cons_skip_nondict (collab : Val → List Elem) (uuids : Nat → String)
    {gd : Val} (h : ∀ kvs, gd ≠ Val.dict kvs) (rest : List Val) (i : Nat) :
    processScm collab uuids i (gd :: rest) = processScm collab uuids i rest := by
  cases gd with
  | dict kvs => exact absurd rfl (h kvs)
  | str s => rfl
  | bool b => rfl
  | int n => rfl
  | null => rfl
  | list xs => rfl

theorem processScm_cons_skip_nogit (collab : Val → List Elem) (uuids : Nat → String)
    {kvs : List (String × Val)} (h : alookup kvs "git" = Option.none) (rest : List Val)
    (i : Nat) :
    processScm collab uuids i (Val.dict kvs :: rest) = processScm collab uuids i rest := by
  simp [processScm, h]

theorem processScm_cons_skip (collab : Val → List Elem) (uuids : Nat → String)
    {gd : Val} (h : entryGit gd = Option.none) (rest : List Val) (i : Nat) :
    processScm collab uuids i (gd :: rest) = processScm collab uuids i rest := by
  cases gd with
  | dict kvs => exact processScm_cons_skip_nogit collab uuids h rest i
  | str s => rfl
  | bool b => rfl
  | int n => rfl
  | null => rfl
  | list xs => rfl

theorem processScm_cons_ok (collab : Val → List Elem) (uuids : Nat → String)
    {gd g : Val} (hg : entryGit gd = some g) (htyped : gitSpecTypedB g = true)
    (hreq : gitSpecReqB g = true) (rest : List Val) (i : Nat) :
    ∃ bs, processScm collab uuids i (gd :: rest) =
      (processScm collab uuids (i + 1) rest).map (fun l => bs :: l) := by
  obtain ⟨kvs, rfl, hgit⟩ := entryGit_some_inv hg
  obtain ⟨gk, urlv, crv, rfl, hu, hc⟩ := gitSpecReqB_inv hreq
  obtain ⟨src, hgen⟩ : ∃ s, generate_git_scm_xml collab (uuids i) (Val.dict gk) = .ok s :=
    ⟨_, gen_char collab (uuids i) hu hc⟩
  cases hs : alookup gk "strategy" with
  | none =>
    refine ⟨Elem.mk "jenkins.branch.BranchSource" [] Option.none
      [src, generate_default_source_strategy], ?_⟩
    simp only [processScm, hgit, hgen, exBind_ok, pyContains_dict, hs, Option.isSome_none,
      Bool.false_eq_true, if_false, exPure_eq]
    cases processScm collab uuids (i + 1) rest <;> simp
  | some sv =>
    have hsok : strategyOkB sv = true := by
      simpa [gitSpecTypedB, hu, hc, hs] using htyped
    obtain ⟨se, hse⟩ := strat_ok_of_strategyOkB hsok
    refine ⟨Elem.mk "jenkins.branch.BranchSource" [] Option.none [src, se], ?_⟩
    simp only [processScm, hgit, hgen, exBind_ok, pyContains_dict, hs, Option.isSome_some,
      if_true, pyGetItem_dict_some hs, hse, exPure_eq]
    cases processScm collab uuids (i + 1) rest <;> simp

theorem processScm_all_ok (collab : Val → List Elem) (uuids : Nat → String) :
    ∀ (es : List Val) (i : Nat), (∀ e ∈ es, entryOkB e = true) →
    ∃ l, processScm collab uuids i es = .ok l ∧
      l.length = es.countP (fun e => (entryGit e).isSome) := by
  intro es
  induction es with
  | nil => exact fun i _ => ⟨[], rfl, by simp⟩
  | cons gd rest ih =>
    intro i h
    have hgd := h gd (List.mem_cons_self _ _)
    have hrest : ∀ e ∈ rest, entryOkB e = true := fun e he => h e (List.mem_cons_of_mem _ he)
    cases hg : entryGit gd with
    | none =>
      obtain ⟨l, hl, hlen⟩ := ih i hrest
      refine ⟨l, by rw [processScm_cons_skip collab uuids hg rest i]; exact hl, ?_⟩
      simp [List.countP_cons, hg, hlen]
    | some g =>
      have hok : gitSpecTypedB g = true ∧ gitSpecReqB g = true := by
        simpa [entryOkB, hg, Bool.and_eq_true] using hgd
      obtain ⟨bs, hbs⟩ := processScm_cons_ok collab uuids hg hok.1 hok.2 rest i
      obtain ⟨l, hl, hlen⟩ := ih (i + 1) hrest
      refine ⟨bs :: l, by rw [hbs, hl]; rfl, ?_⟩
      simp [List.countP_cons, hg, hlen]

theorem processScm_first_bad (collab : Val → List Elem) (uuids : Nat → String) :
    ∀ (es : List Val) (i : Nat), (∀ e ∈ es, entryTypedB e = true) →
    es.all entryOkB = false →
    ∃ f, processScm collab uuids i es = .error (.keyError f) ∧
      ((f = "url" ∧ ∃ gk, (∃ e ∈ es, entryGit e = some (.dict gk)) ∧
          alookup gk "url" = Option.none) ∨
       (f = "credentials-id" ∧ ∃ gk, (∃ e ∈ es, entryGit e = some (.dict gk)) ∧
          alookup gk "credentials-id" = Option.none)) := by
  intro es
  induction es with
  | nil => intro i _ hall; simp at hall
  | cons gd rest ih =>
    intro i htyped hall
    have htgd : entryTypedB gd = true := htyped gd (List.mem_cons_self _ _)
    have htrest : ∀ e ∈ rest, entryTypedB e = true :=
      fun e he => htyped e (List.mem_cons_of_mem _ he)
    rw [List.all_cons, Bool.and_eq_false_iff] at hall
    cases hok : entryOkB gd with
    | true =>
      have hrest : rest.all entryOkB = false := by
        cases hall with
        | inl h => rw [hok] at h; cases h
        | inr h => exact h
      obtain ⟨f, hf, hcase⟩ := ih (i + 1) htrest hrest
      cases hg : entryGit gd with
      | none =>
        obtain ⟨f', hf', hcase'⟩ := ih i htrest hrest
        refine ⟨f', by rw [processScm_cons_skip collab uuids hg rest i]; exact hf', ?_⟩
        rcases hcase' with ⟨hfe, gk, ⟨e, he, hge⟩, hmiss⟩ | ⟨hfe, gk, ⟨e, he, hge⟩, hmiss⟩
        · exact Or.inl ⟨hfe, gk, ⟨e, List.mem_cons_of_mem _ he, hge⟩, hmiss⟩
        · exact Or.inr ⟨hfe, gk, ⟨e, List.mem_cons_of_mem _ he, hge⟩, hmiss⟩
      | some g =>
        have hb : gitSpecTypedB g = true ∧ gitSpecReqB g = true := by
          simpa [entryOkB, hg, Bool.and_eq_true] using hok
        obtain ⟨bs, hbs⟩ := processScm_cons_ok collab uuids hg hb.1 hb.2 rest i
        refine ⟨f, by rw [hbs, hf]; rfl, ?_⟩
        rcases hcase with ⟨hfe, gk, ⟨e, he, hge⟩, hmiss⟩ | ⟨hfe, gk, ⟨e, he, hge⟩, hmiss⟩
        · exact Or.inl ⟨hfe, gk, ⟨e, List.mem_cons_of_mem _ he, hge⟩, hmiss⟩
        · exact Or.inr ⟨hfe, gk, ⟨e, List.mem_cons_of_mem _ he, hge⟩, hmiss⟩
    | false =>
      cases hg : entryGit gd with
      | none => simp [entryOkB, hg] at hok
      | some g =>
        have htg : gitSpecTypedB g = true := by
          simpa [entryTypedB, hg] using htgd
        obtain ⟨gk, hgk⟩ : ∃ gk, g = Val.dict gk := by
          cases g with
          | dict gk => exact ⟨gk, rfl⟩
          | str s => simp [gitSpecTypedB] at htg
          | bool b => simp [gitSpecTypedB] at htg
          | int n => simp [gitSpecTypedB] at htg
          | null => simp [gitSpecTypedB] at htg
          | list xs => simp [gitSpecTypedB] at htg
        subst hgk
        obtain ⟨kvs, rfl, hgit⟩ := entryGit_some_inv hg
        cases hu : alookup gk "url" with
        | none =>
          refine ⟨"url", ?_, Or.inl ⟨rfl, gk,
            ⟨Val.dict kvs, List.mem_cons_self _ _, hg⟩, hu⟩⟩
          simp [processScm, hgit, gen_err_url collab (uuids i) hu]
        | some urlv =>
          cases hc : alookup gk "credentials-id" with
          | none =>
            refine ⟨"credentials-id", ?_, Or.inr ⟨rfl, gk,
              ⟨Val.dict kvs, List.mem_cons_self _ _, hg⟩, hc⟩⟩
            simp [processScm, hgit, gen_err_creds collab (uuids i) hu hc]
          | some crv =>
            exfalso
            simp [entryOkB, hg, gitSpecReqB, hu, hc, htg] at hok

theorem processScm_filter (collab : Val → List Elem) (uuids : Nat → String) :
    ∀ (es : List Val) (i : Nat),
    processScm collab uuids i es =
      processScm collab uuids i (es.filter (fun e => (entryGit e).isSome)) := by
  intro es
  induction es with
  | nil => intro i; rfl
  | cons gd rest ih =>
    intro i
    cases hg : entryGit gd with
    | none =>
      rw [processScm_cons_skip collab uuids hg rest i]
      simpa [List.filter_cons, hg] using ih i
    | some g =>
      obtain ⟨kvs, rfl, hgit⟩ := entryGit_some_inv hg
      simp only [List.filter_cons, hg, Option.isSome_some, if_true]
      simp only [processScm, hgit]
      rw [ih (i + 1)]

theorem processScm_prefix_error (collab : Val → List Elem) (uuids : Nat → String)
    (err : PyError) :
    ∀ (pre : List Val), (∀ e ∈ pre, entryOkB e = true) →
    ∀ (tail : List Val), (∀ j, processScm collab uuids j tail = .error err) →
    ∀ i, processScm collab uuids i (pre ++ tail) = .error err := by
  intro pre
  induction pre with
  | nil => intro _ tail htail i; exact htail i
  | cons gd rest ih =>
    intro h tail htail i
    have hgd := h gd (List.mem_cons_self _ _)
    have hrest : ∀ e ∈ rest, entryOkB e = true := fun e he => h e (List.mem_cons_of_mem _ he)
    cases hg : entryGit gd with
    | none =>
      rw [List.cons_append, processScm_cons_skip collab uuids hg (rest ++ tail) i]
      exact ih hrest tail htail i
    | some g =>
      have hok : gitSpecTypedB g = true ∧ gitSpecReqB g = true := by
        simpa [entryOkB, hg, Bool.and_eq_true] using hgd
      obtain ⟨bs, hbs⟩ := processScm_cons_ok collab uuids hg hok.1 hok.2 (rest ++ tail) i
      rw [List.cons_append, hbs, ih hrest tail htail (i + 1)]
      rfl

/-! ## Lemmas about `stripIds` (determinism modulo the generated ids) -/

@[simp] theorem stripIds_mk (b : Bool) (t : String) (a : List (String × String))
    (tx : Option Val) (k : List Elem) :
    stripIds b (.mk t a tx k) =
      .mk t a (if b && (t == "id") then Option.none else tx)
        (stripIdsList (t == "source") k) := by
  rw [stripIds]

@[simp] theorem stripIdsList_nil (b : Bool) : stripIdsList b [] = [] := by
  rw [stripIdsList]

@[simp] theorem stripIdsList_cons (b : Bool) (e : Elem) (es : List Elem) :
    stripIdsList b (e :: es) = stripIds b e :: stripIdsList b es := by
  rw [stripIdsList]

theorem stripIdsList_append (b : Bool) (l1 l2 : List Elem) :
    stripIdsList b (l1 ++ l2) = stripIdsList b l1 ++ stripIdsList b l2 := by
  induction l1 with
  | nil => simp
  | cons e es ih => simp [ih]

theorem gen_strip (collab : Val → List Elem) (u u' : String) (g : Val) :
    (generate_git_scm_xml collab u g).map (stripIds false) =
    (generate_git_scm_xml collab u' g).map (stripIds false) := by
  cases g with
  | dict kvs =>
    cases hu : alookup kvs "url" with
    | none => rw [gen_err_url collab u hu, gen_err_url collab u' hu]
    | some urlv =>
      cases hc : alookup kvs "credentials-id" with
      | none => rw [gen_err_creds collab u hu hc, gen_err_creds collab u' hu hc]
      | some crv =>
        rw [gen_char collab u hu hc, gen_char collab u' hu hc]
        cases hx : alookup kvs "excludes" <;>
          simp [hx, stripIdsList_append]
  | str s => rfl
  | bool b => rfl
  | int n => rfl
  | null => rfl
  | list xs => rfl

theorem processScm_strip (collab : Val → List Elem) (u u' : Nat → String) :
    ∀ (es : List Val) (i : Nat),
    (processScm collab u i es).map (stripIdsList false) =
    (processScm collab u' i es).map (stripIdsList false) := by
  intro es
  induction es with
  | nil => intro i; rfl
  | cons gd rest ih =>
    intro i
    cases hcons : entryGit gd with
    | none =>
      rw [processScm_cons_skip collab u hcons rest i,
        processScm_cons_skip collab u' hcons rest i]
      exact ih i
    | some g =>
      obtain ⟨kvs, rfl, hgit⟩ := entryGit_some_inv hcons
      simp only [processScm, hgit]
      have hgen := gen_strip collab (u i) (u' i) g
      cases h1 : generate_git_scm_xml collab (u i) g with
      | error e =>
        cases h2 : generate_git_scm_xml collab (u' i) g with
        | error e' =>
          rw [h1, h2] at hgen
          simp only [exMap_error, Except.error.injEq] at hgen
          subst hgen
          simp
        | ok s2 => rw [h1, h2] at hgen; simp at hgen
      | ok s1 =>
        cases h2 : generate_git_scm_xml collab (u' i) g with
        | error e' => rw [h1, h2] at hgen; simp at hgen
        | ok s2 =>
          have hs : stripIds false s1 = stripIds false s2 := by
            rw [h1, h2] at hgen
            simpa using hgen
          simp only [exBind_ok]
          cases hstr : pyContains g "strategy" with
          | error e => simp [hstr]
          | ok b =>
            have hrec := ih (i + 1)
            rcases b with _ | _
            · simp only [hstr, exBind_ok, Bool.false_eq_true, if_false]
              cases hr1 : processScm collab u (i + 1) rest with
              | error e =>
                cases hr2 : processScm collab u' (i + 1) rest with
                | error e' =>
                  rw [hr1, hr2] at hrec
                  simp only [exMap_error, Except.error.injEq] at hrec
                  subst hrec
                  simp
                | ok l2 => rw [hr1, hr2] at hrec; simp at hrec
              | ok l1 =>
                cases hr2 : processScm collab u' (i + 1) rest with
                | error e' => rw [hr1, hr2] at hrec; simp at hrec
                | ok l2 =>
                  have hl : stripIdsList false l1 = stripIdsList false l2 := by
                    rw [hr1, hr2] at hrec
                    simpa using hrec
                  simp [hs, hl]
            · simp only [hstr, exBind_ok, if_true]
              cases hsv : pyGetItem g "strategy" with
              | error e => simp [hsv]
              | ok sv =>
                simp only [hsv, exBind_ok]
                cases hse : generate_source_strategy sv with
                | error e => simp [hse]
                | ok se =>
                  simp only [hse, exBind_ok]
                  cases hr1 : processScm collab u (i + 1) rest with
                  | error e =>
                    cases hr2 : processScm collab u' (i + 1) rest with
                    | error e' =>
                      rw [hr1, hr2] at hrec
                      simp only [exMap_error, Except.error.injEq] at hrec
                      subst hrec
                      simp
                    | ok l2 => rw [hr1, hr2] at hrec; simp at hrec
                  | ok l1 =>
                    cases hr2 : processScm collab u' (i + 1) rest with
                    | error e' => rw [hr1, hr2] at hrec; simp at hrec
                    | ok l2 =>
                      have hl : stripIdsList false l1 = stripIdsList false l2 := by
                        rw [hr1, hr2] at hrec
                        simpa using hrec
                      simp [hs, hl]

theorem sourcesBlock_strip (collab : Val → List Elem) (u u' : Nat → String) (pd : Val) :
    (sourcesBlock collab u pd).map (stripIds false) =
    (sourcesBlock collab u' pd).map (stripIds false) := by
  unfold sourcesBlock
  cases hc : pyContains pd "scm" with
  | error e => simp [hc]
  | ok b =>
    rcases b with _ | _
    · simp [hc]
    · simp only [hc, exBind_ok, if_true]
      cases hv : pyGetItem pd "scm" with
      | error e => simp [hv]
      | ok scmV =>
        simp only [hv, exBind_ok]
        cases hit : pyIter scmV with
        | error e => simp [hit]
        | ok entries =>
          simp only [hit, exBind_ok]
          have hps := processScm_strip collab u u' entries 0
          cases h1 : processScm collab u 0 entries with
          | error e =>
            cases h2 : processScm collab u' 0 entries with
            | error e' =>
              rw [h1, h2] at hps
              simp only [exMap_error, Except.error.injEq] at hps
              subst hps
              simp
            | ok l2 => rw [h1, h2] at hps; simp at hps
          | ok l1 =>
            cases h2 : processScm collab u' 0 entries with
            | error e' => rw [h1, h2] at hps; simp at hps
            | ok l2 =>
              have hl : stripIdsList false l1 = stripIdsList false l2 := by
                rw [h1, h2] at hps
                simpa using hps
              simp [hl, sourcesOwnerElem]

/-! ## Lemmas about `noTagB` (absence of the `temp-git` scratch node) -/

@[simp] theorem noTagB_mk (t tg : String) (a : List (String × String)) (tx : Option Val)
    (k : List Elem) : noTagB t (.mk tg a tx k) = ((tg != t) && noTagListB t k) := by
  rw [noTagB]

@[simp] theorem noTagListB_nil (t : String) : noTagListB t [] = true := by
  rw [noTagListB]

@[simp] theorem noTagListB_cons (t : String) (e : Elem) (es : List Elem) :
    noTagListB t (e :: es) = (noTagB t e && noTagListB t es) := by
  rw [noTagListB]

theorem noTagListB_append (t : String) (l1 l2 : List Elem) :
    noTagListB t (l1 ++ l2) = (noTagListB t l1 && noTagListB t l2) := by
  induction l1 with
  | nil => simp
  | cons e es ih => simp [ih, Bool.and_assoc]

theorem noTagListB_forall {t : String} {l : List Elem} :
    noTagListB t l = true ↔ ∀ e ∈ l, noTagB t e = true := by
  induction l with
  | nil => simp
  | cons e es ih => simp [ih]

theorem noTag_child {t : String} {e c : Elem} (h : noTagB t e = true)
    (hc : c ∈ e.children) : noTagB t c = true := by
  cases e with
  | mk tg a tx k =>
    simp only [noTagB_mk, Bool.and_eq_true] at h
    exact noTagListB_forall.mp h.2 c hc

theorem findChild_mem {l : List Elem} {tag : String} {s : Elem}
    (h : findChild l tag = some s) : s ∈ l :=
  List.mem_of_find?_eq_some h

theorem noTag_findSplice {tc : List Elem}
    (h : ∀ c ∈ tc, noTagB "temp-git" c = true) :
    noTagListB "temp-git" (findSplice tc) = true := by
  unfold findSplice
  cases hs : findChild tc "scm" with
  | none => simp
  | some s =>
    by_cases hse : s.children.isEmpty
    · simp [hse]
    · simp only [hse, Bool.false_eq_true, if_false]
      cases hx : findChild s.children "extensions" with
      | none => simp
      | some x =>
        by_cases hxe : x.children.isEmpty
        · simp [hxe]
        · have hxs : noTagB "temp-git" x = true :=
            noTag_child (h s (findChild_mem hs)) (findChild_mem hx)
          simp [hxe, hxs]

theorem noTag_gen {collab : Val → List Elem} {u : String} {g : Val} {e : Elem}
    (h : generate_git_scm_xml collab u g = .ok e)
    (hcol : ∀ c ∈ collab g, noTagB "temp-git" c = true) :
    noTagB "temp-git" e = true := by
  cases g with
  | dict kvs =>
    cases hu : alookup kvs "url" with
    | none => rw [gen_err_url collab u hu] at h; cases h
    | some urlv =>
      cases hc : alookup kvs "credentials-id" with
      | none => rw [gen_err_creds collab u hu hc] at h; cases h
      | some crv =>
        rw [gen_char collab u hu hc] at h
        obtain rfl := (Except.ok.injEq _ _).mp h
        have hsp := noTag_findSplice hcol
        cases hx : alookup kvs "excludes" <;>
          simp [hx, noTagListB_append, hsp]
  | str s => rw [gen_nondict collab u (fun l hl => Val.noConfusion hl)] at h; cases h
  | bool b => rw [gen_nondict collab u (fun l hl => Val.noConfusion hl)] at h; cases h
  | int n => rw [gen_nondict collab u (fun l hl => Val.noConfusion hl)] at h; cases h
  | null => rw [gen_nondict collab u (fun l hl => Val.noConfusion hl)] at h; cases h
  | list xs => rw [gen_nondict collab u (fun l hl => Val.noConfusion hl)] at h; cases h

theorem noTag_namedList (l : List Val) :
    noTagListB "temp-git" (l.map namedExceptionElem) = true := by
  induction l with
  | nil => simp
  | cons v vs ih => simp [namedExceptionElem, noTriggerArrayElem, ih]

theorem noTag_strat {sv : Val} {e : Elem} (h : generate_source_strategy sv = .ok e) :
    noTagB "temp-git" e = true := by
  unfold generate_source_strategy at h
  cases hc : pyContains sv "exceptions" with
  | error er => rw [hc] at h; cases h
  | ok b =>
    rw [hc] at h
    rcases b with _ | _
    · simp only [exBind_ok, Bool.false_eq_true, if_false, exPure_eq,
        Except.ok.injEq] at h
      subst h
      simp [noTriggerArrayElem]
    · simp only [exBind_ok, if_true] at h
      cases hv : pyGetItem sv "exceptions" with
      | error er => rw [hv] at h; cases h
      | ok ex =>
        rw [hv] at h
        simp only [exBind_ok] at h
        cases hit : pyIter ex with
        | error er => rw [hit] at h; cases h
        | ok excs =>
          rw [hit] at h
          simp only [exBind_ok, exPure_eq, Except.ok.injEq] at h
          subst h
          simp [noTriggerArrayElem, noTag_namedList]

theorem noTag_processScm {collab : Val → List Elem} {uuids : Nat → String}
    (hcol : ∀ v, ∀ c ∈ collab v, noTagB "temp-git" c = true) :
    ∀ (es : List Val) (i : Nat) (l : List Elem),
    processScm collab uuids i es = .ok l → noTagListB "temp-git" l = true := by
  intro es
  induction es with
  | nil =>
    intro i l h
    obtain rfl := (Except.ok.injEq _ _).mp h
    simp
  | cons gd rest ih =>
    intro i l h
    cases hg : entryGit gd with
    | none =>
      rw [processScm_cons_skip collab uuids hg rest i] at h
      exact ih i l h
    | some g =>
      obtain ⟨kvs, rfl, hgit⟩ := entryGit_some_inv hg
      simp only [processScm, hgit] at h
      cases hgen : generate_git_scm_xml collab (uuids i) g with
      | error er => rw [hgen] at h; cases h
      | ok src =>
        rw [hgen] at h
        simp only [exBind_ok] at h
        cases hstr : pyContains g "strategy" with
        | error er => rw [hstr] at h; cases h
        | ok b =>
          rw [hstr] at h
          have hsrc := noTag_gen hgen (hcol g)
          rcases b with _ | _
          · simp only [Bool.false_eq_true, if_false, exBind_ok] at h
            cases hrec : processScm collab uuids (i + 1) rest with
            | error er => rw [hrec] at h; cases h
            | ok l' =>
              rw [hrec] at h
              simp only [exBind_ok, exPure_eq, Except.ok.injEq] at h
              subst h
              simp [hsrc, ih (i + 1) l' hrec, generate_default_source_strategy]
          · simp only [if_true, exBind_ok] at h
            cases hsv : pyGetItem g "strategy" with
            | error er => rw [hsv] at h; cases h
            | ok sv =>
              rw [hsv] at h
              simp only [exBind_ok] at h
              cases hse : generate_source_strategy sv with
              | error er => rw [hse] at h; cases h
              | ok se =>
                rw [hse] at h
                simp only [exBind_ok] at h
                cases hrec : processScm collab uuids (i + 1) rest with
                | error er => rw [hrec] at h; cases h
                | ok l' =>
                  rw [hrec] at h
                  simp only [exBind_ok, exPure_eq, Except.ok.injEq] at h
                  subst h
                  simp [hsrc, noTag_strat hse, ih (i + 1) l' hrec]

instance {α : Type} [DecidableEq α] : DecidableEq (Except PyError α) := fun x y =>
  match x, y with
  | .ok a, .ok b =>
    if h : a = b then isTrue (by rw [h])
    else isFalse (fun hh => h ((Except.ok.injEq a b).mp hh))
  | .error e, .error f =>
    if h : e = f then isTrue (by rw [h])
    else isFalse (fun hh => h ((Except.error.injEq e f).mp hh))
  | .ok _, .error _ => isFalse (fun hh => Except.noConfusion hh)
  | .error _, .ok _ => isFalse (fun hh => Except.noConfusion hh)

theorem noTag_propertiesBlock {pd : Val} {e : Elem} (h : propertiesBlock pd = .ok e) :
    noTagB "temp-git" e = true := by
  unfold propertiesBlock at h
  cases hc : pyContains pd "env-properties" with
  | error er => rw [hc] at h; cases h
  | ok b =>
    rw [hc] at h
    rcases b with _ | _
    · simp only [exBind_ok, Bool.false_eq_true, if_false, exPure_eq, Except.ok.injEq] at h
      subst h
      simp [folderCredentialsElem]
    · simp only [exBind_ok, if_true] at h
      cases hv : pyGetItem pd "env-properties" with
      | error er => rw [hv] at h; cases h
      | ok ev =>
        rw [hv] at h
        simp only [exBind_ok, exPure_eq, Except.ok.injEq] at h
        subst h
        simp [folderCredentialsElem]

theorem noTag_orphanedBlock {pd : Val} {e : Elem} (h : orphanedBlock pd = .ok e) :
    noTagB "temp-git" e = true := by
  unfold orphanedBlock at h
  cases hc : pyContains pd "prune-dead-branches" with
  | error er => rw [hc] at h; cases h
  | ok b =>
    rw [hc] at h
    rcases b with _ | _
    · simp only [exBind_ok, Bool.false_eq_true, if_false, exPure_eq] at h
      cases hd : pyGet pd "days-to-keep" (.str "-1") with
      | error er => rw [hd] at h; cases h
      | ok dv =>
        rw [hd] at h
        cases hn : pyGet pd "number-to-keep" (.str "-1") with
        | error er => rw [hn] at h; cases h
        | ok nv =>
          rw [hn] at h
          simp only [exBind_ok, exPure_eq, Except.ok.injEq] at h
          subst h
          simp
    · simp only [exBind_ok, if_true] at h
      cases hv : pyGet pd "prune-dead-branches" (.bool false) with
      | error er => rw [hv] at h; cases h
      | ok pv =>
        rw [hv] at h
        simp only [exBind_ok, exPure_eq] at h
        cases hd : pyGet pd "days-to-keep" (.str "-1") with
        | error er => rw [hd] at h; cases h
        | ok dv =>
          rw [hd] at h
          cases hn : pyGet pd "number-to-keep" (.str "-1") with
          | error er => rw [hn] at h; cases h
          | ok nv =>
            rw [hn] at h
            simp only [exBind_ok, exPure_eq, Except.ok.injEq] at h
            subst h
            simp

theorem noTag_triggersBlock {pd : Val} {e : Elem} (h : triggersBlock pd = .ok e) :
    noTagB "temp-git" e = true := by
  unfold triggersBlock at h
  cases hc : pyContains pd "timer-trigger" with
  | error er => rw [hc] at h; cases h
  | ok b =>
    rw [hc] at h
    have step : ∀ (tk : List Elem),
        noTagListB "temp-git" tk = true →
        (do
          let spec ← pyGetItem pd "periodic-folder-spec"
          let interval ← pyGetItem pd "periodic-folder-interval"
          pure (Elem.mk "triggers" [] Option.none
            (tk ++
              [Elem.mk "com.cloudbees.hudson.plugins.folder.computed.PeriodicFolderTrigger"
                [("plugin", "cloudbees-folder")] Option.none
                [Elem.mk "spec" [] (some spec) [],
                 Elem.mk "interval" [] (some interval) []]]))) = Except.ok e →
        noTagB "temp-git" e = true := by
      intro tk htk hh
      cases hs : pyGetItem pd "periodic-folder-spec" with
      | error er => rw [hs] at hh; cases hh
      | ok sv =>
        rw [hs] at hh
        cases hi : pyGetItem pd "periodic-folder-interval" with
        | error er => rw [hi] at hh; cases hh
        | ok iv =>
          rw [hi] at hh
          simp only [exBind_ok, exPure_eq, Except.ok.injEq] at hh
          subst hh
          simp [noTagListB_append, htk]
    rcases b with _ | _
    · simp only [exBind_ok, Bool.false_eq_true, if_false, exPure_eq] at h
      exact step [] (by simp) h
    · simp only [exBind_ok, if_true] at h
      cases ht : pyGetItem pd "timer-trigger" with
      | error er => rw [ht] at h; cases h
      | ok tv =>
        rw [ht] at h
        simp only [exBind_ok, exPure_eq] at h
        exact step _ (by simp) h

theorem noTag_sourcesBlock {collab : Val → List Elem} {uuids : Nat → String} {pd : Val}
    {e : Elem} (hcol : ∀ v, ∀ c ∈ collab v, noTagB "temp-git" c = true)
    (h : sourcesBlock collab uuids pd = .ok e) :
    noTagB "temp-git" e = true := by
  unfold sourcesBlock at h
  cases hc : pyContains pd "scm" with
  | error er => rw [hc] at h; cases h
  | ok b =>
    rw [hc] at h
    rcases b with _ | _
    · simp only [exBind_ok, Bool.false_eq_true, if_false, exPure_eq, Except.ok.injEq] at h
      subst h
      simp [sourcesOwnerElem]
    · simp only [exBind_ok, if_true] at h
      cases hv : pyGetItem pd "scm" with
      | error er => rw [hv] at h; cases h
      | ok scmV =>
        rw [hv] at h
        simp only [exBind_ok] at h
        cases hit : pyIter scmV with
        | error er => rw [hit] at h; cases h
        | ok entries =>
          rw [hit] at h
          simp only [exBind_ok] at h
          cases hps : processScm collab uuids 0 entries with
          | error er => rw [hps] at h; cases h
          | ok l =>
            rw [hps] at h
            simp only [exBind_ok, exPure_eq, Except.ok.injEq] at h
            subst h
            simp [sourcesOwnerElem, noTag_processScm hcol entries 0 l hps]

/-! ## Lemmas about `setKeyA` (Python dictionary update) -/

theorem alookup_setKeyA_self (kvs : List (String × Val)) (k : String) (v : Val) :
    alookup (setKeyA kvs k v) k = some v := by
  induction kvs with
  | nil => simp [setKeyA, alookup]
  | cons p rest ih =>
    obtain ⟨k', v'⟩ := p
    by_cases h : k' = k
    · subst h
      simp [setKeyA, alookup]
    · have hb : (k' == k) = false := beq_eq_false_iff_ne.mpr h
      simp [setKeyA, hb, alookup, ih]

theorem alookup_setKeyA_ne (kvs : List (String × Val)) (k k' : String) (v : Val)
    (h : k' ≠ k) : alookup (setKeyA kvs k v) k' = alookup kvs k' := by
  have hb : (k == k') = false := beq_eq_false_iff_ne.mpr (fun hh => h hh.symm)
  induction kvs with
  | nil => simp [setKeyA, alookup, hb]
  | cons p rest ih =>
    obtain ⟨k'', v''⟩ := p
    by_cases hk : k'' = k
    · subst hk
      have hb2 : (k'' == k') = false := beq_eq_false_iff_ne.mpr (fun hh => h hh.symm)
      simp [setKeyA, alookup, hb, hb2]
    · have hb3 : (k'' == k) = false := beq_eq_false_iff_ne.mpr hk
      simp only [setKeyA, hb3, Bool.false_eq_true, if_false]
      by_cases he : k'' = k'
      · subst he
        simp [alookup]
      · have hb4 : (k'' == k') = false := beq_eq_false_iff_ne.mpr he
        simp [alookup, hb4, ih]

theorem processScm_head_nondict (collab : Val → List Elem) (uuids : Nat → String)
    {kvs : List (String × Val)} {g : Val} (hg : alookup kvs "git" = some g)
    (hnd : ∀ l, g ≠ Val.dict l) (rest : List Val) (i : Nat) :
    processScm collab uuids i (Val.dict kvs :: rest) = .error .typeError := by
  simp [processScm, hg, gen_nondict collab (uuids i) hnd]

theorem propsElemOf_set_scm (pd : List (String × Val)) (v : Val) :
    propsElemOf (setKeyA pd "scm" v) = propsElemOf pd := by
  unfold propsElemOf
  rw [alookup_setKeyA_ne pd "scm" "env-properties" v (by decide)]

theorem orphanedElemOf_set_scm (pd : List (String × Val)) (v : Val) :
    orphanedElemOf (setKeyA pd "scm" v) = orphanedElemOf pd := by
  unfold orphanedElemOf
  rw [alookup_setKeyA_ne pd "scm" "prune-dead-branches" v (by decide),
    alookup_setKeyA_ne pd "scm" "days-to-keep" v (by decide),
    alookup_setKeyA_ne pd "scm" "number-to-keep" v (by decide)]

theorem triggersBlock_set_scm (pd : List (String × Val)) (v : Val) :
    triggersBlock (.dict (setKeyA pd "scm" v)) = triggersBlock (.dict pd) := by
  unfold triggersBlock
  simp only [pyContains_dict, pyGetItem,
    alookup_setKeyA_ne pd "scm" "timer-trigger" v (by decide),
    alookup_setKeyA_ne pd "scm" "periodic-folder-spec" v (by decide),
    alookup_setKeyA_ne pd "scm" "periodic-folder-interval" v (by decide)]

/-! ## The claims -/

/-- **C1**: for every configuration record without the key `multibranch`,
`root_xml` returns exactly the bare root element — the
`WorkflowMultiBranchProject` tag with the single attribute
`plugin="workflow-multibranch"`, no text and no children. -/
theorem claim_C1_bare_root (collab : Val → List Elem) (uuids : Nat → String)
    (data : List (String × Val)) (h : alookup data "multibranch" = Option.none) :
    root_xml collab uuids data =
      .ok (.mk rootTag [("plugin", "workflow-multibranch")] Option.none []) :=
  root_xml_no_multibranch h

/-- Witness for **C1** at the concrete record `{name: "x"}`. -/
theorem claim_C1_bare_root_witness :
    root_xml (fun _ => []) (fun _ => "u") [("name", Val.str "x")] =
      .ok (.mk rootTag [("plugin", "workflow-multibranch")] Option.none []) :=
  claim_C1_bare_root (fun _ => []) (fun _ => "u") [("name", Val.str "x")] rfl

/-- **C3** counterexample: for the git source spec
`{url: "https://x/y.git", credentials-id: "c1"}` (no `excludes` key), the
children of the generated `source` node are *not* in the claimed order
`id, remote, credentialsId, ignoreOnPushNotifications, includes, excludes`
(the empty `excludes` child is created first, before the loop that adds
the other field children). -/
theorem claim_C3_counterexample :
    ¬ ((generate_git_scm_xml (fun _ => []) "u"
        (.dict [("url", .str "https://x/y.git"), ("credentials-id", .str "c1")])).map
        (fun e => e.children.map Elem.tag) =
      .ok ["id", "remote", "credentialsId", "ignoreOnPushNotifications", "includes",
        "excludes"]) := by
  decide

/-- **C3** (amended): for every git source spec with `url` and
`credentials-id` present, the `source` node's field children are, in
order, `id` (the fresh uuid), `remote` (= `url`), `credentialsId`
(= `credentials-id`), `ignoreOnPushNotifications` (lowercase string of
the value, default `"true"`), `includes` (default `"*"`), followed by
`excludes` with the raw value — *when the spec has an `excludes` key*;
when it has none, the `excludes` child is still present with no text but
it is emitted as the *first* child, before `id`, not after `includes`.
(Any spliced `extensions` subtree follows at the end.) -/
theorem claim_C3_field_order (collab : Val → List Elem) (u : String)
    {kvs : List (String × Val)} {urlv crv : Val}
    (hu : alookup kvs "url" = some urlv)
    (hc : alookup kvs "credentials-id" = some crv) :
    generate_git_scm_xml collab u (.dict kvs) = .ok (Elem.mk "source"
      [("class", "jenkins.plugins.git.GitSCMSource"), ("plugin", "git")] Option.none
      ((match alookup kvs "excludes" with
        | some ev =>
          [Elem.mk "id" [] (some (.str u)) [],
           Elem.mk "remote" [] (some urlv) [],
           Elem.mk "credentialsId" [] (some crv) [],
           Elem.mk "ignoreOnPushNotifications" []
             (some (.str (strLower (pyStr
               ((alookup kvs "ignore-on-push-notifications").getD (.bool true)))))) [],
           Elem.mk "includes" [] (some ((alookup kvs "includes").getD (.str "*"))) [],
           Elem.mk "excludes" [] (some ev) []]
        | Option.none =>
          [Elem.mk "excludes" [] Option.none [],
           Elem.mk "id" [] (some (.str u)) [],
           Elem.mk "remote" [] (some urlv) [],
           Elem.mk "credentialsId" [] (some crv) [],
           Elem.mk "ignoreOnPushNotifications" []
             (some (.str (strLower (pyStr
               ((alookup kvs "ignore-on-push-notifications").getD (.bool true)))))) [],
           Elem.mk "includes" [] (some ((alookup kvs "includes").getD (.str "*"))) []])
       ++ findSplice (collab (.dict kvs)))) :=
  gen_char collab u hu hc

/-- Witness for **C3** at the spec `{url: "U", credentials-id: "C"}`. -/
theorem claim_C3_field_order_witness :
    generate_git_scm_xml (fun _ => []) "u" (.dict [("url", Val.str "U"),
        ("credentials-id", Val.str "C")]) =
      .ok (Elem.mk "source"
        [("class", "jenkins.plugins.git.GitSCMSource"), ("plugin", "git")] Option.none
        [Elem.mk "excludes" [] Option.none [],
         Elem.mk "id" [] (some (.str "u")) [],
         Elem.mk "remote" [] (some (.str "U")) [],
         Elem.mk "credentialsId" [] (some (.str "C")) [],
         Elem.mk "ignoreOnPushNotifications" [] (some (.str "true")) [],
         Elem.mk "includes" [] (some (.str "*")) []]) :=
  claim_C3_field_order (fun _ => []) "u" rfl rfl

/-- **C4** counterexample: a collaborator whose `scm` node contains an
`extensions` child that is present but has no children of its own.  The
claim says that `extensions` subtree is spliced into the `source` node;
the code tests the `extensions` element for truthiness (a childless
`Element` is falsy), so nothing is spliced. -/
theorem claim_C4_counterexample :
    ¬ ((generate_git_scm_xml
        (fun _ => [Elem.mk "scm" [] Option.none [Elem.mk "extensions" [] Option.none []]])
        "u" (.dict [("url", .str "U"), ("credentials-id", .str "C")])).map
        (fun e => (e.children.map Elem.tag).contains "extensions") = .ok true) := by
  decide

/-- **C4** (amended): the collaborator's `extensions` subtree is spliced
(as the last child of `source`, the rest of the collaborator's output
being discarded) exactly when the `scm` node is found *and is non-empty*
and its `extensions` child is found *and is non-empty* — truthiness of an
`Element` is having children, not existing.  When the `scm` node exists
but has no `extensions` child — or either element is childless — nothing
is spliced and no error occurs. -/
theorem claim_C4_splice (collab : Val → List Elem) (u : String)
    {kvs : List (String × Val)} {urlv crv : Val}
    (hu : alookup kvs "url" = some urlv)
    (hc : alookup kvs "credentials-id" = some crv) :
    ∃ e, generate_git_scm_xml collab u (.dict kvs) = .ok e ∧
      (∀ s x, findChild (collab (.dict kvs)) "scm" = some s →
        findChild s.children "extensions" = some x →
        s.children.isEmpty = false → x.children.isEmpty = false →
        e.children.getLast? = some x ∧ x ∈ e.children) ∧
      ((∀ s, findChild (collab (.dict kvs)) "scm" = some s →
          (findChild s.children "extensions" = Option.none ∨
           s.children.isEmpty = true ∨
           ∃ x, findChild s.children "extensions" = some x ∧
             x.children.isEmpty = true)) →
        ∀ c ∈ e.children, c.tag ≠ "extensions") := by
  refine ⟨_, gen_char collab u hu hc, ?_, ?_⟩
  · intro s x hs hx hsne hxne
    have hF : findSplice (collab (.dict kvs)) = [x] := by
      unfold findSplice
      simp [hs, hsne, hx, hxne]
    rw [Elem.children_mk, hF]
    exact ⟨List.getLast?_concat _, List.mem_append_right _ (List.mem_singleton.mpr rfl)⟩
  · intro hno
    have hF : findSplice (collab (.dict kvs)) = [] := by
      unfold findSplice
      cases hs : findChild (collab (.dict kvs)) "scm" with
      | none => rfl
      | some s =>
        rcases hno s hs with hx | hse | ⟨x, hx, hxe⟩
        · by_cases hE : s.children.isEmpty
          · simp [hE]
          · simp [hE, hx]
        · simp [hse]
        · by_cases hE : s.children.isEmpty
          · simp [hE]
          · simp [hE, hx, hxe]
    rw [Elem.children_mk, hF, List.append_nil]
    intro c hcm
    cases hx : alookup kvs "excludes" with
    | some ev =>
      rw [hx] at hcm
      simp only [List.mem_cons, List.not_mem_nil, or_false] at hcm
      rcases hcm with rfl | rfl | rfl | rfl | rfl | rfl <;> simp
    | none =>
      rw [hx] at hcm
      simp only [List.mem_cons, List.not_mem_nil, or_false] at hcm
      rcases hcm with rfl | rfl | rfl | rfl | rfl | rfl <;> simp

/-- Witness for **C4** at the spec `{url: "U", credentials-id: "C"}` with
a collaborator returning an `scm` node holding a non-empty `extensions`
child. -/
theorem claim_C4_splice_witness :
    ∃ e, generate_git_scm_xml
        (fun _ => [Elem.mk "scm" [] Option.none
          [Elem.mk "extensions" [] Option.none [Elem.mk "wipe" [] Option.none []]]])
        "u" (.dict [("url", Val.str "U"), ("credentials-id", Val.str "C")]) = .ok e ∧
      (∀ s x, findChild ((fun (_ : Val) => [Elem.mk "scm" [] Option.none
          [Elem.mk "extensions" [] Option.none [Elem.mk "wipe" [] Option.none []]]])
            (.dict [("url", Val.str "U"), ("credentials-id", Val.str "C")])) "scm" = some s →
        findChild s.children "extensions" = some x →
        s.children.isEmpty = false → x.children.isEmpty = false →
        e.children.getLast? = some x ∧ x ∈ e.children) ∧
      ((∀ s, findChild ((fun (_ : Val) => [Elem.mk "scm" [] Option.none
          [Elem.mk "extensions" [] Option.none [Elem.mk "wipe" [] Option.none []]]])
            (.dict [("url", Val.str "U"), ("credentials-id", Val.str "C")])) "scm" = some s →
          (findChild s.children "extensions" = Option.none ∨
           s.children.isEmpty = true ∨
           ∃ x, findChild s.children "extensions" = some x ∧
             x.children.isEmpty = true)) →
        ∀ c ∈ e.children, c.tag ≠ "extensions") :=
  claim_C4_splice
    (fun _ => [Elem.mk "scm" [] Option.none
      [Elem.mk "extensions" [] Option.none [Elem.mk "wipe" [] Option.none []]]])
    "u" rfl rfl

/-- **C5**: the three branch-strategy shapes.  With no strategy spec the
default strategy carries a `properties` child with the distinct
`empty-list` class marker; a strategy spec without `exceptions` yields
the same `DefaultBranchPropertyStrategy` tag but a
`java.util.Arrays$ArrayList` properties child holding exactly one
no-trigger branch property; a strategy spec with `exceptions` yields the
`NamedExceptionsBranchPropertyStrategy` tag with a one-no-trigger
`defaultProperties` substructure and one `Named` entry per exception
value, in input order, each holding a one-item no-trigger list and a
`name` text child equal to the exception value verbatim. -/
theorem claim_C5_strategies (kvs : List (String × Val)) (names : List Val)
    (hexc : alookup kvs "exceptions" = Option.none ∨
            alookup kvs "exceptions" = some (.list names)) :
    generate_default_source_strategy =
      Elem.mk "strategy" [("class", "jenkins.branch.DefaultBranchPropertyStrategy")]
        Option.none
        [Elem.mk "properties" [("class", "empty-list")] Option.none []] ∧
    generate_source_strategy (.dict kvs) = .ok (match alookup kvs "exceptions" with
      | Option.none =>
        Elem.mk "strategy" [("class", "jenkins.branch.DefaultBranchPropertyStrategy")]
          Option.none
          [Elem.mk "properties" [("class", "java.util.Arrays$ArrayList")] Option.none
            [Elem.mk "a" [("class", "jenkins.branch.BranchProperty-array")] Option.none
              [Elem.mk "jenkins.branch.NoTriggerBranchProperty" [] Option.none []]]]
      | some _ =>
        Elem.mk "strategy" [("class", "jenkins.branch.NamedExceptionsBranchPropertyStrategy")]
          Option.none
          [Elem.mk "defaultProperties" [("class", "java.util.Arrays$ArrayList")] Option.none
            [Elem.mk "a" [("class", "jenkins.branch.BranchProperty-array")] Option.none
              [Elem.mk "jenkins.branch.NoTriggerBranchProperty" [] Option.none []]],
           Elem.mk "namedExceptions" [("class", "java.util.Arrays$ArrayList")] Option.none
            [Elem.mk "a"
              [("class", "jenkins.branch.NamedExceptionsBranchPropertyStrategy$Named-array")]
              Option.none
              (names.map (fun nm =>
                Elem.mk "jenkins.branch.NamedExceptionsBranchPropertyStrategy_-Named" []
                  Option.none
                  [Elem.mk "props" [("class", "java.util.Arrays$ArrayList")] Option.none
                    [Elem.mk "a" [("class", "jenkins.branch.BranchProperty-array")]
                      Option.none
                      [Elem.mk "jenkins.branch.NoTriggerBranchProperty" [] Option.none []]],
                   Elem.mk "name" [] (some nm) []]))]]) := by
  refine ⟨rfl, ?_⟩
  rcases hexc with h | h
  · simp only [h]
    rw [strat_no_exceptions h]
    rfl
  · simp only [h]
    rw [strat_exceptions h]
    rfl

/-- Witness for **C5** at the strategy spec
`{exceptions: ["release/1.0", "hotfix"]}`. -/
theorem claim_C5_strategies_witness :
    generate_default_source_strategy =
      Elem.mk "strategy" [("class", "jenkins.branch.DefaultBranchPropertyStrategy")]
        Option.none
        [Elem.mk "properties" [("class", "empty-list")] Option.none []] ∧
    generate_source_strategy (.dict [("exceptions",
        Val.list [Val.str "release/1.0", Val.str "hotfix"])]) =
      .ok (Elem.mk "strategy"
        [("class", "jenkins.branch.NamedExceptionsBranchPropertyStrategy")] Option.none
        [Elem.mk "defaultProperties" [("class", "java.util.Arrays$ArrayList")] Option.none
          [Elem.mk "a" [("class", "jenkins.branch.BranchProperty-array")] Option.none
            [Elem.mk "jenkins.branch.NoTriggerBranchProperty" [] Option.none []]],
         Elem.mk "namedExceptions" [("class", "java.util.Arrays$ArrayList")] Option.none
          [Elem.mk "a"
            [("class", "jenkins.branch.NamedExceptionsBranchPropertyStrategy$Named-array")]
            Option.none
            [Elem.mk "jenkins.branch.NamedExceptionsBranchPropertyStrategy_-Named" []
              Option.none
              [Elem.mk "props" [("class", "java.util.Arrays$ArrayList")] Option.none
                [Elem.mk "a" [("class", "jenkins.branch.BranchProperty-array")] Option.none
                  [Elem.mk "jenkins.branch.NoTriggerBranchProperty" [] Option.none []]],
               Elem.mk "name" [] (some (Val.str "release/1.0")) []],
             Elem.mk "jenkins.branch.NamedExceptionsBranchPropertyStrategy_-Named" []
              Option.none
              [Elem.mk "props" [("class", "java.util.Arrays$ArrayList")] Option.none
                [Elem.mk "a" [("class", "jenkins.branch.BranchProperty-array")] Option.none
                  [Elem.mk "jenkins.branch.NoTriggerBranchProperty" [] Option.none []]],
               Elem.mk "name" [] (some (Val.str "hotfix")) []]]]]) :=
  claim_C5_strategies [("exceptions", Val.list [Val.str "release/1.0", Val.str "hotfix"])]
    [Val.str "release/1.0", Val.str "hotfix"] (Or.inr rfl)

/-- **C7** counterexample: with `prune-dead-branches` present but empty
(YAML null), the emitted `pruneDeadBranches` text is `"none"`
(`str(None).lower()`), not `"false"` — `dict.get`'s default applies only
when the key is absent, and the key is present here. -/
theorem claim_C7_counterexample :
    ¬ ((root_xml (fun _ => []) (fun _ => "u")
        [("multibranch", .dict
          [("prune-dead-branches", Val.null),
           ("periodic-folder-spec", .str "s"),
           ("periodic-folder-interval", .str "i")])]).map
        (fun t => (((findChild t.children "orphanedItemStrategy").bind
          (fun o => findChild o.children "pruneDeadBranches")).bind Elem.text).map pyStr) =
      .ok (some "false")) := by
  decide

/-- **C7** (amended): in the orphaned-item strategy block, when
`prune-dead-branches` is absent no `pruneDeadBranches` child is emitted
at all; when present, the child's text is the lowercase string form of
the value actually stored (so a present-but-null value yields `"none"`,
not `"false"` — the `False` default of the `.get` call is dead because
the key is known to be present); `daysToKeep` and `numToKeep` are always
emitted, with the raw value and no numeric validation, defaulting to
`"-1"` when `days-to-keep` / `number-to-keep` are absent. -/
theorem claim_C7_orphaned (pd : List (String × Val)) :
    orphanedBlock (.dict pd) = .ok (Elem.mk "orphanedItemStrategy"
      [("class", "com.cloudbees.hudson.plugins.folder.computed.DefaultOrphanedItemStrategy"),
       ("plugin", "cloudbees-folder")] Option.none
      ((match alookup pd "prune-dead-branches" with
        | some v => [Elem.mk "pruneDeadBranches" [] (some (.str (strLower (pyStr v)))) []]
        | Option.none => []) ++
       [Elem.mk "daysToKeep" [] (some ((alookup pd "days-to-keep").getD (.str "-1"))) [],
        Elem.mk "numToKeep" [] (some ((alookup pd "number-to-keep").getD (.str "-1"))) []])) :=
  orphanedBlock_dict pd

/-- **C8**: `root_xml` is deterministic modulo the generated identifiers:
for any two uuid oracles, the two results agree exactly — same
success/error outcome, and on success the two documents coincide after
erasing the text of every `id` child of a `source` element (the only
field filled from `uuid.uuid4()`); every other node, attribute and text
is identical. -/
theorem claim_C8_deterministic (collab : Val → List Elem) (u1 u2 : Nat → String)
    (data : List (String × Val)) :
    (root_xml collab u1 data).map (stripIds false) =
    (root_xml collab u2 data).map (stripIds false) := by
  cases hm : alookup data "multibranch" with
  | none => rw [root_xml_no_multibranch hm, root_xml_no_multibranch hm]
  | some pd =>
    simp only [root_xml, hm]
    cases hp : propertiesBlock pd with
    | error e => simp [hp]
    | ok props =>
      simp only [hp, exBind_ok]
      cases ho : orphanedBlock pd with
      | error e => simp [ho]
      | ok orphaned =>
        simp only [ho, exBind_ok]
        cases ht : triggersBlock pd with
        | error e => simp [ht]
        | ok triggers =>
          simp only [ht, exBind_ok]
          have hsb := sourcesBlock_strip collab u1 u2 pd
          cases h1 : sourcesBlock collab u1 pd with
          | error e =>
            cases h2 : sourcesBlock collab u2 pd with
            | error e' =>
              rw [h1, h2] at hsb
              simp only [exMap_error, Except.error.injEq] at hsb
              subst hsb
              simp
            | ok s2 => rw [h1, h2] at hsb; simp at hsb
          | ok s1 =>
            cases h2 : sourcesBlock collab u2 pd with
            | error e' => rw [h1, h2] at hsb; simp at hsb
            | ok s2 =>
              have hs : stripIds false s1 = stripIds false s2 := by
                rw [h1, h2] at hsb
                simpa using hsb
              simp [rootTag, hs]

/-- **C10**: whenever `root_xml` returns a document — given that the
`scm.git` collaborator's output carries no `temp-git`-tagged element —
no element tagged `temp-git` occurs anywhere in the returned tree: the
scratch element created to receive the collaborator's output is removed
from the `source` node before `generate_git_scm_xml` returns, whether or
not an `extensions` subtree was spliced. -/
theorem claim_C10_no_temp_git (collab : Val → List Elem) (uuids : Nat → String)
    (data : List (String × Val)) (t : Elem)
    (hcol : ∀ v, ∀ c ∈ collab v, noTagB "temp-git" c = true)
    (hok : root_xml collab uuids data = .ok t) :
    noTagB "temp-git" t = true := by
  cases hm : alookup data "multibranch" with
  | none =>
    rw [root_xml_no_multibranch hm] at hok
    obtain rfl := (Except.ok.injEq _ _).mp hok
    simp [rootTag]
  | some pd =>
    simp only [root_xml, hm] at hok
    cases hp : propertiesBlock pd with
    | error e => rw [hp] at hok; cases hok
    | ok props =>
      rw [hp] at hok
      simp only [exBind_ok] at hok
      cases ho : orphanedBlock pd with
      | error e => rw [ho] at hok; cases hok
      | ok orphaned =>
        rw [ho] at hok
        simp only [exBind_ok] at hok
        cases ht : triggersBlock pd with
        | error e => rw [ht] at hok; cases hok
        | ok triggers =>
          rw [ht] at hok
          simp only [exBind_ok] at hok
          cases hs : sourcesBlock collab uuids pd with
          | error e => rw [hs] at hok; cases hok
          | ok sources =>
            rw [hs] at hok
            simp only [exBind_ok, exPure_eq, Except.ok.injEq] at hok
            subst hok
            simp [rootTag, viewsElem, viewsTabBarElem, healthMetricsElem, iconElem,
              factoryElem, noTag_propertiesBlock hp, noTag_orphanedBlock ho,
              noTag_triggersBlock ht, noTag_sourcesBlock hcol hs]

/-- Witness for **C10** with the empty collaborator and the empty
configuration record. -/
theorem claim_C10_no_temp_git_witness :
    noTagB "temp-git" (Elem.mk rootTag [("plugin", "workflow-multibranch")]
      Option.none []) = true :=
  claim_C10_no_temp_git (fun _ => []) (fun _ => "u") []
    (Elem.mk rootTag [("plugin", "workflow-multibranch")] Option.none [])
    (fun _ c hc => absurd hc (List.not_mem_nil c)) rfl

/-- **C2**: with `multibranch` present (a mapping) and a well-typed scm
list, the four required fields behave as claimed: a missing
`periodic-folder-spec` or `periodic-folder-interval`, or a processed git
source spec missing `url` or `credentials-id`, makes the build abort
with a `KeyError` naming a field that is indeed missing, and no document
is produced; conversely, when all four are present the build returns a
document and no such error is raised. -/
theorem claim_C2_required_fields (collab : Val → List Elem) (uuids : Nat → String)
    (data : List (String × Val)) {pd : List (String × Val)} {es : List Val}
    (hmb : alookup data "multibranch" = some (.dict pd))
    (hscm : alookup pd "scm" = some (.list es) ∨
            (alookup pd "scm" = Option.none ∧ es = []))
    (htyped : ∀ e ∈ es, entryTypedB e = true) :
    (alookup pd "periodic-folder-spec" = Option.none →
      root_xml collab uuids data = .error (.keyError "periodic-folder-spec")) ∧
    (∀ sv, alookup pd "periodic-folder-spec" = some sv →
      alookup pd "periodic-folder-interval" = Option.none →
      root_xml collab uuids data = .error (.keyError "periodic-folder-interval")) ∧
    (∀ sv iv, alookup pd "periodic-folder-spec" = some sv →
      alookup pd "periodic-folder-interval" = some iv →
      ((es.all entryOkB = true → ∃ t, root_xml collab uuids data = .ok t) ∧
       (es.all entryOkB = false →
         ∃ f, root_xml collab uuids data = .error (.keyError f) ∧
           ((f = "url" ∧ ∃ gk, (∃ e ∈ es, entryGit e = some (.dict gk)) ∧
               alookup gk "url" = Option.none) ∨
            (f = "credentials-id" ∧ ∃ gk, (∃ e ∈ es, entryGit e = some (.dict gk)) ∧
               alookup gk "credentials-id" = Option.none))))) := by
  refine ⟨?_, ?_, ?_⟩
  · intro hps
    rw [root_xml_dict hmb, triggersBlock_no_spec hps]
    rfl
  · intro sv hps hpi
    rw [root_xml_dict hmb, triggersBlock_no_interval hps hpi]
    rfl
  · intro sv iv hps hpi
    constructor
    · intro hall
      rcases hscm with hl | ⟨hn, rfl⟩
      · obtain ⟨l, hpl, _⟩ := processScm_all_ok collab uuids es 0
          (fun e he => List.all_eq_true.mp hall e he)
        refine ⟨Elem.mk rootTag [("plugin", "workflow-multibranch")] Option.none
          [propsElemOf pd, viewsElem, viewsTabBarElem, healthMetricsElem, iconElem,
           orphanedElemOf pd, triggersElemOf pd sv iv, sourcesElemOf l, factoryElem], ?_⟩
        rw [root_xml_dict hmb, triggersBlock_ok hps hpi, sourcesBlock_scm_list hl, hpl]
        rfl
      · refine ⟨Elem.mk rootTag [("plugin", "workflow-multibranch")] Option.none
          [propsElemOf pd, viewsElem, viewsTabBarElem, healthMetricsElem, iconElem,
           orphanedElemOf pd, triggersElemOf pd sv iv, sourcesElemOf [], factoryElem], ?_⟩
        rw [root_xml_dict hmb, triggersBlock_ok hps hpi, sourcesBlock_no_scm hn]
        rfl
    · intro hall
      rcases hscm with hl | ⟨hn, rfl⟩
      · obtain ⟨f, hpf, hcase⟩ := processScm_first_bad collab uuids es 0 htyped hall
        refine ⟨f, ?_, hcase⟩
        rw [root_xml_dict hmb, triggersBlock_ok hps hpi, sourcesBlock_scm_list hl, hpf]
        rfl
      · simp at hall

/-- Witness for **C2** at a record with all four required fields present
and one well-formed git entry. -/
theorem claim_C2_required_fields_witness :
    (alookup [("periodic-folder-spec", Val.str "s"),
        ("periodic-folder-interval", Val.str "i"),
        ("scm", Val.list [Val.dict [("git", Val.dict [("url", Val.str "U"),
          ("credentials-id", Val.str "C")])]])] "periodic-folder-spec" = Option.none →
      root_xml (fun _ => []) (fun _ => "u")
        [("multibranch", Val.dict [("periodic-folder-spec", Val.str "s"),
          ("periodic-folder-interval", Val.str "i"),
          ("scm", Val.list [Val.dict [("git", Val.dict [("url", Val.str "U"),
            ("credentials-id", Val.str "C")])]])])] =
        .error (.keyError "periodic-folder-spec")) ∧
    (∀ sv, alookup [("periodic-folder-spec", Val.str "s"),
        ("periodic-folder-interval", Val.str "i"),
        ("scm", Val.list [Val.dict [("git", Val.dict [("url", Val.str "U"),
          ("credentials-id", Val.str "C")])]])] "periodic-folder-spec" = some sv →
      alookup [("periodic-folder-spec", Val.str "s"),
        ("periodic-folder-interval", Val.str "i"),
        ("scm", Val.list [Val.dict [("git", Val.dict [("url", Val.str "U"),
          ("credentials-id", Val.str "C")])]])] "periodic-folder-interval" = Option.none →
      root_xml (fun _ => []) (fun _ => "u")
        [("multibranch", Val.dict [("periodic-folder-spec", Val.str "s"),
          ("periodic-folder-interval", Val.str "i"),
          ("scm", Val.list [Val.dict [("git", Val.dict [("url", Val.str "U"),
            ("credentials-id", Val.str "C")])]])])] =
        .error (.keyError "periodic-folder-interval")) ∧
    (∀ sv iv, alookup [("periodic-folder-spec", Val.str "s"),
        ("periodic-folder-interval", Val.str "i"),
        ("scm", Val.list [Val.dict [("git", Val.dict [("url", Val.str "U"),
          ("credentials-id", Val.str "C")])]])] "periodic-folder-spec" = some sv →
      alookup [("periodic-folder-spec", Val.str "s"),
        ("periodic-folder-interval", Val.str "i"),
        ("scm", Val.list [Val.dict [("git", Val.dict [("url", Val.str "U"),
          ("credentials-id", Val.str "C")])]])] "periodic-folder-interval" = some iv →
      (([Val.dict [("git", Val.dict [("url", Val.str "U"),
          ("credentials-id", Val.str "C")])]].all entryOkB = true →
        ∃ t, root_xml (fun _ => []) (fun _ => "u")
          [("multibranch", Val.dict [("periodic-folder-spec", Val.str "s"),
            ("periodic-folder-interval", Val.str "i"),
            ("scm", Val.list [Val.dict [("git", Val.dict [("url", Val.str "U"),
              ("credentials-id", Val.str "C")])]])])] = .ok t) ∧
       ([Val.dict [("git", Val.dict [("url", Val.str "U"),
          ("credentials-id", Val.str "C")])]].all entryOkB = false →
        ∃ f, root_xml (fun _ => []) (fun _ => "u")
          [("multibranch", Val.dict [("periodic-folder-spec", Val.str "s"),
            ("periodic-folder-interval", Val.str "i"),
            ("scm", Val.list [Val.dict [("git", Val.dict [("url", Val.str "U"),
              ("credentials-id", Val.str "C")])]])])] = .error (.keyError f) ∧
          ((f = "url" ∧ ∃ gk, (∃ e ∈ [Val.dict [("git", Val.dict [("url", Val.str "U"),
              ("credentials-id", Val.str "C")])]], entryGit e = some (.dict gk)) ∧
              alookup gk "url" = Option.none) ∨
           (f = "credentials-id" ∧ ∃ gk,
              (∃ e ∈ [Val.dict [("git", Val.dict [("url", Val.str "U"),
                ("credentials-id", Val.str "C")])]], entryGit e = some (.dict gk)) ∧
              alookup gk "credentials-id" = Option.none))))) :=
  claim_C2_required_fields (fun _ => []) (fun _ => "u")
    [("multibranch", Val.dict [("periodic-folder-spec", Val.str "s"),
      ("periodic-folder-interval", Val.str "i"),
      ("scm", Val.list [Val.dict [("git", Val.dict [("url", Val.str "U"),
        ("credentials-id", Val.str "C")])]])])]
    rfl (Or.inl rfl)
    (fun e he => by rw [List.mem_singleton] at he; subst he; rfl)

/-- **C6**: scm entries that are not mappings or lack a `git` key are
skipped and processing continues: the build equals the build on the
record whose `scm` list keeps only the processed (dictionary-with-`git`)
entries, it still returns a complete document, and the `data` node holds
exactly one branch source per processed entry. -/
theorem claim_C6_skip_malformed (collab : Val → List Elem) (uuids : Nat → String)
    (data : List (String × Val)) {pd : List (String × Val)} {sv iv : Val} {es : List Val}
    (hmb : alookup data "multibranch" = some (.dict pd))
    (hps : alookup pd "periodic-folder-spec" = some sv)
    (hpi : alookup pd "periodic-folder-interval" = some iv)
    (hscm : alookup pd "scm" = some (.list es))
    (hok : ∀ e ∈ es, entryOkB e = true) :
    root_xml collab uuids data =
      root_xml collab uuids (setKeyA data "multibranch"
        (.dict (setKeyA pd "scm" (.list (es.filter (fun e => (entryGit e).isSome)))))) ∧
    ∃ l, root_xml collab uuids data = .ok (Elem.mk rootTag
        [("plugin", "workflow-multibranch")] Option.none
        [propsElemOf pd, viewsElem, viewsTabBarElem, healthMetricsElem, iconElem,
         orphanedElemOf pd, triggersElemOf pd sv iv, sourcesElemOf l, factoryElem]) ∧
      l.length = es.countP (fun e => (entryGit e).isSome) := by
  constructor
  · have hmb' : alookup (setKeyA data "multibranch"
        (.dict (setKeyA pd "scm" (.list (es.filter (fun e => (entryGit e).isSome))))))
        "multibranch" =
        some (.dict (setKeyA pd "scm" (.list (es.filter (fun e => (entryGit e).isSome))))) :=
      alookup_setKeyA_self data "multibranch" _
    have hscm' : alookup (setKeyA pd "scm"
        (.list (es.filter (fun e => (entryGit e).isSome)))) "scm" =
        some (.list (es.filter (fun e => (entryGit e).isSome))) :=
      alookup_setKeyA_self pd "scm" _
    rw [root_xml_dict hmb, root_xml_dict hmb', propsElemOf_set_scm,
      orphanedElemOf_set_scm, triggersBlock_set_scm,
      sourcesBlock_scm_list hscm, sourcesBlock_scm_list hscm',
      ← processScm_filter]
  · obtain ⟨l, hpl, hlen⟩ := processScm_all_ok collab uuids es 0 hok
    refine ⟨l, ?_, hlen⟩
    rw [root_xml_dict hmb, triggersBlock_ok hps hpi, sourcesBlock_scm_list hscm, hpl]
    rfl

/-- Witness for **C6** at a record whose scm list holds one malformed
entry (a bare string) and one well-formed git entry. -/
theorem claim_C6_skip_malformed_witness :
    root_xml (fun _ => []) (fun _ => "u")
      [("multibranch", Val.dict [("periodic-folder-spec", Val.str "s"),
        ("periodic-folder-interval", Val.str "i"),
        ("scm", Val.list [Val.str "junk", Val.dict [("git", Val.dict
          [("url", Val.str "U"), ("credentials-id", Val.str "C")])]])])] =
      root_xml (fun _ => []) (fun _ => "u")
        (setKeyA [("multibranch", Val.dict [("periodic-folder-spec", Val.str "s"),
          ("periodic-folder-interval", Val.str "i"),
          ("scm", Val.list [Val.str "junk", Val.dict [("git", Val.dict
            [("url", Val.str "U"), ("credentials-id", Val.str "C")])]])])]
          "multibranch"
          (.dict (setKeyA [("periodic-folder-spec", Val.str "s"),
            ("periodic-folder-interval", Val.str "i"),
            ("scm", Val.list [Val.str "junk", Val.dict [("git", Val.dict
              [("url", Val.str "U"), ("credentials-id", Val.str "C")])]])]
            "scm"
            (.list ([Val.str "junk", Val.dict [("git", Val.dict
              [("url", Val.str "U"), ("credentials-id", Val.str "C")])]].filter
              (fun e => (entryGit e).isSome)))))) ∧
    ∃ l, root_xml (fun _ => []) (fun _ => "u")
      [("multibranch", Val.dict [("periodic-folder-spec", Val.str "s"),
        ("periodic-folder-interval", Val.str "i"),
        ("scm", Val.list [Val.str "junk", Val.dict [("git", Val.dict
          [("url", Val.str "U"), ("credentials-id", Val.str "C")])]])])] =
      .ok (Elem.mk rootTag [("plugin", "workflow-multibranch")] Option.none
        [propsElemOf [("periodic-folder-spec", Val.str "s"),
          ("periodic-folder-interval", Val.str "i"),
          ("scm", Val.list [Val.str "junk", Val.dict [("git", Val.dict
            [("url", Val.str "U"), ("credentials-id", Val.str "C")])]])],
         viewsElem, viewsTabBarElem, healthMetricsElem, iconElem,
         orphanedElemOf [("periodic-folder-spec", Val.str "s"),
          ("periodic-folder-interval", Val.str "i"),
          ("scm", Val.list [Val.str "junk", Val.dict [("git", Val.dict
            [("url", Val.str "U"), ("credentials-id", Val.str "C")])]])],
         triggersElemOf [("periodic-folder-spec", Val.str "s"),
          ("periodic-folder-interval", Val.str "i"),
          ("scm", Val.list [Val.str "junk", Val.dict [("git", Val.dict
            [("url", Val.str "U"), ("credentials-id", Val.str "C")])]])]
          (Val.str "s") (Val.str "i"),
         sourcesElemOf l, factoryElem]) ∧
      l.length = [Val.str "junk", Val.dict [("git", Val.dict
        [("url", Val.str "U"), ("credentials-id", Val.str "C")])]].countP
        (fun e => (entryGit e).isSome) :=
  claim_C6_skip_malformed (fun _ => []) (fun _ => "u")
    [("multibranch", Val.dict [("periodic-folder-spec", Val.str "s"),
      ("periodic-folder-interval", Val.str "i"),
      ("scm", Val.list [Val.str "junk", Val.dict [("git", Val.dict
        [("url", Val.str "U"), ("credentials-id", Val.str "C")])]])])]
    rfl rfl rfl rfl
    (fun e he => by
      rw [List.mem_cons] at he
      rcases he with rfl | he2
      · rfl
      · rw [List.mem_singleton] at he2
        subst he2
        rfl)

/-- **C9**: the non-fatal skip covers only the entry's own shape.  An scm
entry that *is* a mapping with a `git` key whose value is not a mapping
(for example a string) is not skipped: the git generator's first
attribute access on that value raises a type/attribute error, the whole
build aborts with it, and no document is returned — even though all
earlier entries were processed fine. -/
theorem claim_C9_git_value_not_mapping (collab : Val → List Elem) (uuids : Nat → String)
    (data : List (String × Val)) (pre rest : List Val) (kvs : List (String × Val))
    (g : Val) {pd : List (String × Val)} {sv iv : Val}
    (hmb : alookup data "multibranch" = some (.dict pd))
    (hps : alookup pd "periodic-folder-spec" = some sv)
    (hpi : alookup pd "periodic-folder-interval" = some iv)
    (hscm : alookup pd "scm" = some (.list (pre ++ Val.dict kvs :: rest)))
    (hpre : ∀ e ∈ pre, entryOkB e = true)
    (hgit : alookup kvs "git" = some g)
    (hnd : ∀ l, g ≠ Val.dict l) :
    root_xml collab uuids data = .error PyError.typeError := by
  have htail : ∀ j, processScm collab uuids j (Val.dict kvs :: rest) = .error .typeError :=
    fun j => processScm_head_nondict collab uuids hgit hnd rest j
  have hp := processScm_prefix_error collab uuids .typeError pre hpre _ htail 0
  rw [root_xml_dict hmb, triggersBlock_ok hps hpi, sourcesBlock_scm_list hscm, hp]
  rfl

/-- Witness for **C9** at a record whose single scm entry maps `git` to
the string `"oops"`. -/
theorem claim_C9_git_value_not_mapping_witness :
    root_xml (fun _ => []) (fun _ => "u")
      [("multibranch", Val.dict [("periodic-folder-spec", Val.str "s"),
        ("periodic-folder-interval", Val.str "i"),
        ("scm", Val.list [Val.dict [("git", Val.str "oops")]])])] =
      .error PyError.typeError :=
  claim_C9_git_value_not_mapping (fun _ => []) (fun _ => "u")
    [("multibranch", Val.dict [("periodic-folder-spec", Val.str "s"),
      ("periodic-folder-interval", Val.str "i"),
      ("scm", Val.list [Val.dict [("git", Val.str "oops")]])])]
    [] [] [("git", Val.str "oops")] (Val.str "oops") rfl rfl rfl rfl
    (fun e he => absurd he (List.not_mem_nil e))
    rfl (fun _ h => Val.noConfusion h)
